import Mathlib

/-!
Verification development for the workflow execution engine
(FastAPI/SQLAlchemy application: linear executor, state machines,
retry policy, timeout harness, schema validation, manual resume).

The definitions below are a shallow embedding of the Python sources:
  app/models/workflow_execution.py   (WorkflowExecution + state machine)
  app/models/step_execution.py       (StepExecution + state machine)
  app/executor/linear_executor.py    (LinearExecutor)
  app/core/executor_contract.py      (StepResult / StepError / StepMetadata /
                                      ExecutionContext)
Database persistence is modelled as explicit record values; wall-clock time
is threaded as an abstract tick; a step implementation's behaviour under the
timeout harness is abstracted as a per-attempt outcome (returned result,
timeout signal, or raised exception).
-/

namespace WorkflowApp

/-- JSON-like values, the payloads flowing through steps
(`Any` in the Python sources; `obj` is a Python dict). -/
inductive Value where
  | null : Value
  | bool : Bool → Value
  | int : Int → Value
  | str : String → Value
  | list : List Value → Value
  | obj : List (String × Value) → Value

/-- `isinstance(x, dict)` in the sources. -/
def Value.isDict : Value → Bool
  | .obj _ => true
  | _ => false

/-- `x if isinstance(x, dict) else {"value": x}` — the wrapping applied to a
step input before persisting it and before schema validation
(linear_executor.py lines 263, 354, 414). -/
def wrapInput (v : Value) : Value :=
  if v.isDict then v else .obj [("value", v)]

/-- Statuses of `WorkflowExecutionStatus` (workflow_execution.py). -/
inductive WorkflowExecutionStatus where
  | pending | running | success | failed | cancelled
  deriving DecidableEq, Repr

/-- Statuses of `StepExecutionStatus` (step_execution.py). -/
inductive StepExecutionStatus where
  | pending | running | success | failed | skipped
  deriving DecidableEq, Repr

/-- `WorkflowExecution.is_terminal`. -/
def WorkflowExecutionStatus.isTerminal : WorkflowExecutionStatus → Bool
  | .success => true
  | .failed => true
  | .cancelled => true
  | _ => false

/-- `StepExecution.is_terminal`. -/
def StepExecutionStatus.isTerminal : StepExecutionStatus → Bool
  | .success => true
  | .failed => true
  | .skipped => true
  | _ => false

/-- Exceptions that the embedded code can raise. -/
inductive PyExc where
  /-- `InvalidStateTransitionError(from_state, to_state)` -/
  | invalidTransition (from_state to_state : String)
  /-- an exception raised by a step implementation and re-raised by the
  executor (`raise e` in `_execute_single_step`) -/
  | stepException (msg : String)
  /-- `ValueError(msg)` -/
  | valueError (msg : String)
  /-- attribute access on `None` (missing related row) -/
  | attributeError
  deriving DecidableEq, Repr

/-- Display name of a workflow status (`status.value` strings). -/
def WorkflowExecutionStatus.value : WorkflowExecutionStatus → String
  | .pending => "pending"
  | .running => "running"
  | .success => "success"
  | .failed => "failed"
  | .cancelled => "cancelled"

/-- Display name of a step-execution status. -/
def StepExecutionStatus.value : StepExecutionStatus → String
  | .pending => "pending"
  | .running => "running"
  | .success => "success"
  | .failed => "failed"
  | .skipped => "skipped"

/-- The `WorkflowExecution` record (workflow_execution.py).  Identifiers are
surrogate naturals; timestamps are abstract clock ticks. -/
structure WorkflowExecution where
  id : Nat
  workflow_id : Nat
  workflow_version : Nat
  status : WorkflowExecutionStatus
  trigger_source : String
  started_at : Option Nat := none
  finished_at : Option Nat := none
  deriving DecidableEq, Repr

/-- `WorkflowExecution._validate_transition`: the static transition dict
`{PENDING: {RUNNING}, RUNNING: {SUCCESS, FAILED, CANCELLED}}`. -/
def workflowValidTransition :
    WorkflowExecutionStatus → WorkflowExecutionStatus → Bool
  | .pending, .running => true
  | .running, .success => true
  | .running, .failed => true
  | .running, .cancelled => true
  | _, _ => false

/-- The workflow transition table as an explicit set of pairs. -/
def workflowTransitionTable :
    List (WorkflowExecutionStatus × WorkflowExecutionStatus) :=
  [(.pending, .running), (.running, .success),
   (.running, .failed), (.running, .cancelled)]

/-- `WorkflowExecution.transition_to(new_status)`.  Returns the (possibly
updated) record together with the raised exception, if any: the Python method
raises before performing any mutation, so on error the record is returned
unchanged.  `now` stands for `datetime.utcnow()`. -/
def WorkflowExecution.transition_to (w : WorkflowExecution)
    (new_status : WorkflowExecutionStatus) (now : Nat) :
    WorkflowExecution × Option PyExc :=
  if w.status.isTerminal then
    (w, some (.invalidTransition w.status.value new_status.value))
  else if ¬ workflowValidTransition w.status new_status then
    (w, some (.invalidTransition w.status.value new_status.value))
  else
    ({ w with
        status := new_status
        started_at :=
          if new_status = .running then some now else w.started_at
        finished_at :=
          if new_status.isTerminal then some now else w.finished_at },
     none)

/-- The `StepExecution` record.  The fields `status/input/output/error/
error_type` and the timestamps are declared in app/models/step_execution.py;
`retry_count`, `is_retry` and `parent_step_execution_id` are the columns added
to the `step_executions` table by migration d9f14ccfc165 (under src/alembic)
and read/written throughout linear_executor.py. -/
structure StepExecution where
  id : Nat
  workflow_execution_id : Nat
  step_id : Nat
  status : StepExecutionStatus
  input : Value
  output : Option Value := none
  error : Option String := none
  error_type : Option String := none
  retry_count : Nat := 0
  is_retry : Bool := false
  parent_step_execution_id : Option Nat := none
  started_at : Option Nat := none
  finished_at : Option Nat := none

/-- `StepExecution._validate_transition`: the static transition dict
`{PENDING: {RUNNING}, RUNNING: {SUCCESS, FAILED, SKIPPED}}`. -/
def stepValidTransition :
    StepExecutionStatus → StepExecutionStatus → Bool
  | .pending, .running => true
  | .running, .success => true
  | .running, .failed => true
  | .running, .skipped => true
  | _, _ => false

/-- The step-attempt transition table as an explicit set of pairs. -/
def stepTransitionTable :
    List (StepExecutionStatus × StepExecutionStatus) :=
  [(.pending, .running), (.running, .success),
   (.running, .failed), (.running, .skipped)]

/-- `StepExecution.transition_to(new_status)` (same shape as the workflow
machine, with SKIPPED in place of CANCELLED). -/
def StepExecution.transition_to (s : StepExecution)
    (new_status : StepExecutionStatus) (now : Nat) :
    StepExecution × Option PyExc :=
  if s.status.isTerminal then
    (s, some (.invalidTransition s.status.value new_status.value))
  else if ¬ stepValidTransition s.status new_status then
    (s, some (.invalidTransition s.status.value new_status.value))
  else
    ({ s with
        status := new_status
        started_at :=
          if new_status = .running then some now else s.started_at
        finished_at :=
          if new_status.isTerminal then some now else s.finished_at },
     none)

/-- The contents of a non-empty `retry_config` JSON dict on a step.
The two optional keys model `retry_config.get("max_retries", 0)` and
`retry_config.get("backoff_seconds", 1)` in linear_executor.py. -/
structure RetryConfig where
  max_retries : Option Nat := none
  backoff_seconds : Option Nat := none

/-- The `Step` record.  `id`, `workflow_id` and `order` are declared in
app/models/step.py; the `retry_config` column is added by migration
d9f14ccfc165.  `timeout_seconds`, `input_schema` and `output_schema` are
Modelled from the spec: these Step attributes are read by
linear_executor.py and set by the repository's tests (test_timeout.py,
test_validation.py), but the copy of app/models/step.py in the snapshot
predates them (the snapshot is incomplete: app/core/logging.py, imported by
app/core/package init, is missing as well).  A JSON schema is modelled
extensionally as the validation verdict it induces on values; `none` for a
schema or for `retry_config` models both an absent (NULL) and an empty
(falsy) dict, matching the truthiness tests `if step.input_schema:` and
`if not step.retry_config:`. -/
structure Step where
  id : Nat
  workflow_id : Nat
  order : Nat
  timeout_seconds : Nat
  input_schema : Option (Value → Bool) := none
  output_schema : Option (Value → Bool) := none
  retry_config : Option RetryConfig := none

/-- `StepError` (executor_contract.py). -/
structure StepError where
  code : String
  message : String
  retryable : Bool := false
  error_type : String := "permanent"

/-- `StepMetadata` (executor_contract.py). -/
structure StepMetadata where
  duration_ms : Nat
  started_at : Nat
  finished_at : Nat

/-- `StepResult` (executor_contract.py).  `output` is `Optional[Any] = None`
in the source; Python `None` is `Value.null` here. -/
structure StepResult where
  status : String
  output : Value := .null
  error : Option StepError := none
  metadata : Option StepMetadata := none

/-- `StepResult.__post_init__`: status is "success" or "failure", a success
carries no error, a failure carries an error.  Step implementations can only
construct well-formed results because the dataclass raises otherwise. -/
def StepResult.wellFormed (r : StepResult) : Bool :=
  if r.status == "success" then r.error.isNone
  else r.status == "failure" && r.error.isSome

/-- The `ExecutionContext` dataclass exactly as declared in
app/core/executor_contract.py (five fields, no `retry_count`). -/
structure ExecutionContext where
  workflow_execution_id : Nat
  step_execution_id : Nat
  workflow_id : Nat
  step_id : Nat
  trigger_input : Value

/-- The field names of the `ExecutionContext` dataclass
(executor_contract.py lines 187-191). -/
def executionContextFieldNames : List String :=
  ["workflow_execution_id", "step_execution_id", "workflow_id",
   "step_id", "trigger_input"]

/-- The keyword arguments the executor passes when constructing the context
(linear_executor.py lines 393-400). -/
def executorContextCallKwargs : List String :=
  ["workflow_execution_id", "step_execution_id", "workflow_id",
   "step_id", "trigger_input", "retry_count"]

/-- Python dataclass construction by keyword: the generated init accepts a
call iff every passed keyword is a declared field and every (non-defaulted)
field is passed; otherwise it raises `TypeError`. -/
def dataclassCallAccepted (declared passed : List String) : Bool :=
  passed.all (fun k => declared.contains k) &&
  declared.all (fun k => passed.contains k)

/-- Modelled from the spec: the post-Phase-1 execution-context record of
§4.1, carrying the five dataclass fields plus the current attempt's
`retry_count`.  The snapshot's executor_contract.py predates this record
(its dataclass lacks `retry_count`), yet linear_executor.py:393-400 passes
`retry_count=` and the repository's end-to-end scripts (verify_retry.py)
assert runs that require the construction to succeed; the up-to-date
contract module is missing from the snapshot. -/
structure RuntimeContext where
  workflow_execution_id : Nat
  step_execution_id : Nat
  workflow_id : Nat
  step_id : Nat
  trigger_input : Value
  retry_count : Nat

/-- What one invocation of a step implementation under `func_timeout` does:
return a result within the deadline, exceed the wall-clock deadline
(`FunctionTimedOut`), or raise some other exception. -/
inductive StepOutcome where
  | returns (r : StepResult)
  | timesOut
  | raises (msg : String)

/-- A step implementation's behaviour across attempts, abstracted as a
function of the step id and the attempt's `retry_count`. -/
def Behavior := Nat → Nat → StepOutcome

/-- Observable side effects of the orchestration that the claims mention:
the call into a step implementation (with the raw value it receives) and
the backoff sleep before a retry. -/
inductive Event where
  | invoke (step_id retry_count : Nat) (input : Value)
  | sleep (seconds : Nat)

/-- The backoff duration read before a retry:
`step.retry_config.get("backoff_seconds", 1)` (linear_executor.py:325). -/
def backoffFor (step : Step) : Nat :=
  match step.retry_config with
  | some rc => rc.backoff_seconds.getD 1
  | none => 1

/-- `max_retries = step.retry_config.get("max_retries", 0)`. -/
def maxRetriesFor (step : Step) : Nat :=
  match step.retry_config with
  | some rc => rc.max_retries.getD 0
  | none => 0

/-- `LinearExecutor._should_retry(step, step_execution, result)`:
retry only transient errors, only when a (truthy) retry config exists, and
only while `retry_count < max_retries`.  The `retryable` flag on the error
is never consulted. -/
def should_retry (step : Step) (step_execution : StepExecution)
    (result : StepResult) : Bool :=
  match result.error with
  | none => false
  | some err =>
    if err.error_type != "transient" then false
    else
      match step.retry_config with
      | none => false
      | some rc => decide (step_execution.retry_count < rc.max_retries.getD 0)

/-- The synthesized result for a failed input validation
(linear_executor.py lines 416-423). -/
def inputValidationFailure : StepResult :=
  { status := "failure"
    error := some
      { code := "VALIDATION_ERROR"
        message := "Input validation failed"
        retryable := false
        error_type := "permanent" }
    metadata := none }

/-- The synthesized result for a failed output validation, preserving the
step's metadata (linear_executor.py lines 433-440). -/
def outputValidationFailure (md : Option StepMetadata) : StepResult :=
  { status := "failure"
    error := some
      { code := "VALIDATION_ERROR"
        message := "Output validation failed"
        retryable := false
        error_type := "permanent" }
    metadata := md }

/-- The synthesized result for a `FunctionTimedOut`
(linear_executor.py lines 444-463): code TIMEOUT, transient, with a
synthetic metadata whose `duration_ms = int(step.timeout_seconds * 1000)`. -/
def timeoutFailure (step : Step) (now : Nat) : StepResult :=
  { status := "failure"
    error := some
      { code := "TIMEOUT"
        message := "Step execution timed out after " ++
          toString step.timeout_seconds ++ " seconds"
        retryable := true
        error_type := "transient" }
    metadata := some
      { duration_ms := step.timeout_seconds * 1000
        started_at := now
        finished_at := now } }

/-- The body of `_execute_single_step` after input validation passed: run
the step under the timeout harness, validate the output of a success, turn
a timeout into the TIMEOUT result, and re-raise (`raise e`) any other
exception escaping the step. -/
def runStepBody (outcome : StepOutcome) (step : Step)
    (retry_count : Nat) (current_input : Value) (now : Nat) :
    Except PyExc (List Event × StepResult) :=
  match outcome with
  | .returns r =>
    if r.status == "success" then
      match step.output_schema with
      | some sch =>
        if sch r.output then
          .ok ([.invoke step.id retry_count current_input], r)
        else
          .ok ([.invoke step.id retry_count current_input],
               outputValidationFailure r.metadata)
      | none => .ok ([.invoke step.id retry_count current_input], r)
    else .ok ([.invoke step.id retry_count current_input], r)
  | .timesOut =>
    .ok ([.invoke step.id retry_count current_input], timeoutFailure step now)
  | .raises msg => .error (.stepException msg)

/-- The outcome of `_execute_single_step` when it returns normally. -/
structure SingleStepOut where
  /-- the attempt record after its transition to RUNNING -/
  attempt : StepExecution
  /-- the context handed to the step implementation -/
  context : RuntimeContext
  /-- invoke events (empty iff the implementation was never called) -/
  events : List Event
  /-- the `StepResult` returned to the caller -/
  result : StepResult

/-- `LinearExecutor._execute_single_step`: transition the attempt to
RUNNING, build the context, validate the (wrapped) input against
`step.input_schema` if present, and run the step body.  The step
implementation receives the raw `current_input` while validation sees the
wrapped value. -/
def executeSingleStep (behavior : Behavior) (step : Step)
    (step_execution : StepExecution) (workflow_id workflow_execution_id : Nat)
    (trigger_input current_input : Value) (now : Nat) :
    Except PyExc SingleStepOut :=
  match step_execution.transition_to .running now with
  | (_, some e) => .error e
  | (se, none) =>
    let context : RuntimeContext :=
      { workflow_execution_id := workflow_execution_id
        step_execution_id := se.id
        workflow_id := workflow_id
        step_id := step.id
        trigger_input := trigger_input
        retry_count := se.retry_count }
    let runBody : Except PyExc SingleStepOut :=
      match runStepBody (behavior step.id se.retry_count) step
          se.retry_count current_input now with
      | .error e => .error e
      | .ok (evs, r) =>
        .ok { attempt := se, context := context, events := evs, result := r }
    match step.input_schema with
    | some sch =>
      if sch (wrapInput current_input) then runBody
      else
        .ok { attempt := se, context := context, events := []
              result := inputValidationFailure }
    | none => runBody

/-- Persisting a failure onto the attempt record
(`step_execution.error = f"{code}: {message}"; step_execution.error_type =
result.error.error_type`, guarded by `if result.error:`). -/
def setError (se : StepExecution) (result : StepResult) : StepExecution :=
  match result.error with
  | some err =>
    { se with
        error := some (err.code ++ ": " ++ err.message)
        error_type := some err.error_type }
  | none => se

/-- The successor attempt created for a retry
(linear_executor.py lines 345-358): PENDING, same (wrapped) input,
`retry_count + 1`, `is_retry=True`, parent set to the failed attempt. -/
def mkRetryAttempt (nextId workflow_execution_id : Nat) (step : Step)
    (prev : StepExecution) (current_input : Value) : StepExecution :=
  { id := nextId
    workflow_execution_id := workflow_execution_id
    step_id := step.id
    status := .pending
    input := wrapInput current_input
    retry_count := prev.retry_count + 1
    is_retry := true
    parent_step_execution_id := some prev.id }

theorem StepExecution.transition_to_fst_retry_count (s : StepExecution)
    (ns : StepExecutionStatus) (now : Nat) :
    ((StepExecution.transition_to s ns now).1).retry_count = s.retry_count := by
  unfold StepExecution.transition_to
  split
  · rfl
  · split <;> rfl

theorem setError_retry_count (se : StepExecution) (r : StepResult) :
    (setError se r).retry_count = se.retry_count := by
  unfold setError
  split <;> rfl

theorem executeSingleStep_attempt {behavior : Behavior} {step : Step}
    {se : StepExecution} {wid weid : Nat} {ti ci : Value} {now : Nat}
    {out : SingleStepOut}
    (h : executeSingleStep behavior step se wid weid ti ci now = .ok out) :
    out.attempt = (StepExecution.transition_to se .running now).1 := by
  unfold executeSingleStep at h
  rcases htr : StepExecution.transition_to se .running now with ⟨se2, exc⟩
  rw [htr] at h
  cases exc with
  | some e => simp at h
  | none =>
    simp only at h
    rcases hsch : step.input_schema with _ | sch <;> rw [hsch] at h
    · rcases hb : runStepBody (behavior step.id se2.retry_count) step
          se2.retry_count ci now with e | ⟨evs, r⟩ <;> rw [hb] at h
      · simp at h
      · simp only [Except.ok.injEq] at h
        rw [← h]
    · simp only at h
      by_cases hv : sch (wrapInput ci) = true
      · rw [if_pos hv] at h
        rcases hb : runStepBody (behavior step.id se2.retry_count) step
            se2.retry_count ci now with e | ⟨evs, r⟩ <;> rw [hb] at h
        · simp at h
        · simp only [Except.ok.injEq] at h
          rw [← h]
      · rw [if_neg hv] at h
        simp only [Except.ok.injEq] at h
        rw [← h]

theorem should_retry_lt {step : Step} {se : StepExecution} {r : StepResult}
    (h : should_retry step se r = true) :
    se.retry_count < maxRetriesFor step := by
  unfold should_retry at h
  rcases herr : r.error with _ | err <;> rw [herr] at h
  · simp at h
  · simp only at h
    split at h
    · simp at h
    · rcases hrc : step.retry_config with _ | rc <;> rw [hrc] at h
      · simp at h
      · simp only [decide_eq_true_eq] at h
        simpa [maxRetriesFor, hrc] using h

/-- The inner retry loop of `_execute_steps` (the `while True:` at
linear_executor.py lines 271-370) for one step, starting from a given
attempt record: run the attempt, persist SUCCESS or FAILED, and on a failed
attempt consult `_should_retry`; when it says yes, sleep the backoff and
continue with the successor attempt.  Returns the attempt records for this
step in creation order, the emitted events, the last attempt and the last
result. -/
def stepLoop (behavior : Behavior) (step : Step)
    (workflow_id workflow_execution_id : Nat) (trigger_input : Value)
    (attempt : StepExecution) (current_input : Value) (now : Nat) :
    Except PyExc
      (List StepExecution × List Event × StepExecution × StepResult) :=
  match heq : executeSingleStep behavior step attempt workflow_id
      workflow_execution_id trigger_input current_input now with
  | .error e => .error e
  | .ok out =>
    if out.result.status == "success" then
      match StepExecution.transition_to out.attempt .success now with
      | (_, some e) => .error e
      | (se2, none) =>
        let fin := { se2 with output := some out.result.output }
        .ok ([fin], out.events, fin, out.result)
    else
      match htr : StepExecution.transition_to out.attempt .failed now with
      | (_, some e) => .error e
      | (se2, none) =>
        let fin := setError se2 out.result
        if hr : should_retry step fin out.result then
          match stepLoop behavior step workflow_id workflow_execution_id
              trigger_input
              (mkRetryAttempt (fin.id + 1) workflow_execution_id step fin
                current_input)
              current_input now with
          | .error e => .error e
          | .ok (as, evs, last, res) =>
            .ok (fin :: as, out.events ++ .sleep (backoffFor step) :: evs,
                 last, res)
        else
          .ok ([fin], out.events, fin, out.result)
  termination_by maxRetriesFor step + 1 - attempt.retry_count
  decreasing_by
    have h1 : se2.retry_count = out.attempt.retry_count := by
      have := congrArg (fun p => p.1.retry_count) htr
      simpa [StepExecution.transition_to_fst_retry_count] using this.symm
    have h2 : out.attempt.retry_count = attempt.retry_count := by
      rw [executeSingleStep_attempt heq,
        StepExecution.transition_to_fst_retry_count]
    have h3 := should_retry_lt hr
    rw [setError_retry_count, h1, h2] at h3
    simp only [mkRetryAttempt, setError_retry_count, h1, h2]
    omega

/-- The outer per-step iteration of `_execute_steps` (lines 257-375): for
each step in order create the first attempt (PENDING, wrapped input
snapshot), run the retry loop, feed a success's output to the next step,
and stop the whole iteration as soon as a step's last attempt is FAILED. -/
def executeStepsGo (behavior : Behavior)
    (workflow_execution_id workflow_id : Nat) (trigger_input : Value)
    (now : Nat) :
    List Step → Value → Nat → Except PyExc (List StepExecution × List Event)
  | [], _, _ => .ok ([], [])
  | step :: rest, current_input, nextId =>
    let a0 : StepExecution :=
      { id := nextId
        workflow_execution_id := workflow_execution_id
        step_id := step.id
        status := .pending
        input := wrapInput current_input }
    match stepLoop behavior step workflow_id workflow_execution_id
        trigger_input a0 current_input now with
    | .error e => .error e
    | .ok (as, evs, last, res) =>
      if last.status = .failed then .ok (as, evs)
      else
        match executeStepsGo behavior workflow_execution_id workflow_id
            trigger_input now rest res.output (nextId + as.length) with
        | .error e => .error e
        | .ok (as2, evs2) => .ok (as ++ as2, evs ++ evs2)

/-- `LinearExecutor._execute_steps`: `current_input = initial_input if
initial_input is not None else trigger_input`, then the per-step
iteration.  `steps` is the list the `order_by(Step.order)` query returns. -/
def executeSteps (behavior : Behavior)
    (workflow_execution_id workflow_id : Nat) (steps : List Step)
    (trigger_input : Value) (initial_input : Option Value)
    (nextId now : Nat) : Except PyExc (List StepExecution × List Event) :=
  executeStepsGo behavior workflow_execution_id workflow_id trigger_input
    now steps (initial_input.getD trigger_input) nextId

/-- The `final_statuses` dict of `_complete_workflow_execution`
(lines 575-579): keyed by `step_id` in first-insertion order, keeping in
each group the attempt with the strictly highest `retry_count` seen so
far. -/
def upsertFinal : List StepExecution → StepExecution → List StepExecution
  | [], se => [se]
  | x :: xs, se =>
    if x.step_id = se.step_id then
      (if se.retry_count > x.retry_count then se else x) :: xs
    else x :: upsertFinal xs se

/-- The effective attempts: one per step id, the one with the highest
`retry_count` (first wins ties, mirroring the strict `>` in the source). -/
def finalStatuses (ses : List StepExecution) : List StepExecution :=
  ses.foldl upsertFinal []

/-- `LinearExecutor._complete_workflow_execution`: group this execution's
attempts by step id, keep the highest-retry attempt of each group, and
transition the workflow to FAILED when any of those is FAILED, else to
SUCCESS. -/
def completeWorkflowExecution (we : WorkflowExecution)
    (ses : List StepExecution) (now : Nat) :
    Except PyExc WorkflowExecution :=
  let any_failed :=
    (finalStatuses ses).any (fun se => decide (se.status = .failed))
  match WorkflowExecution.transition_to we
      (if any_failed then .failed else .success) now with
  | (_, some e) => .error e
  | (we2, none) => .ok we2

/-- The `Workflow` record (only the attributes the executor reads). -/
structure Workflow where
  id : Nat
  version : Nat

/-- `LinearExecutor.execute(workflow, trigger_input, trigger_source)`:
create the execution in PENDING, transition it to RUNNING, run the steps
sequentially, and complete the execution.  `steps` is the workflow's step
list in ascending `order`. -/
def executeWorkflow (behavior : Behavior) (workflow : Workflow)
    (steps : List Step) (trigger_input : Value) (now : Nat) :
    Except PyExc (WorkflowExecution × List StepExecution × List Event) :=
  let we0 : WorkflowExecution :=
    { id := 0
      workflow_id := workflow.id
      workflow_version := workflow.version
      status := .pending
      trigger_source := "manual" }
  match WorkflowExecution.transition_to we0 .running now with
  | (_, some e) => .error e
  | (we1, none) =>
    match executeSteps behavior we1.id workflow.id steps trigger_input
        none 1 now with
    | .error e => .error e
    | .ok (ses, evs) =>
      match completeWorkflowExecution we1 ses now with
      | .error e => .error e
      | .ok we2 => .ok (we2, ses, evs)

/-- Insertion into a list sorted by ascending `order`. -/
def insertByOrder (s : Step) : List Step → List Step
  | [] => [s]
  | t :: ts =>
    if s.order ≤ t.order then s :: t :: ts else t :: insertByOrder s ts

/-- `ORDER BY steps.order` of the SQL query, modelled as insertion sort. -/
def sortByOrder : List Step → List Step
  | [] => []
  | s :: ss => insertByOrder s (sortByOrder ss)

/-- The persisted state `resume_execution` queries. -/
structure Db where
  workflows : List Workflow
  steps : List Step
  executions : List WorkflowExecution
  step_executions : List StepExecution

/-- `LinearExecutor.resume_execution(workflow_execution_id,
retry_step_execution_id)` (lines 113-232), faithfully including what it
does NOT do: beyond the two existence lookups there is no check that the
execution is terminal and not CANCELLED, none that the referenced attempt
belongs to this execution, none that the attempt is FAILED, and none that
no newer attempt exists.  A FAILED execution is put back to RUNNING by a
raw status assignment that bypasses `transition_to`.  Returns the updated
execution, the full attempt list of this execution after the call, and the
events. -/
def resumeExecution (behavior : Behavior) (db : Db)
    (workflow_execution_id retry_step_execution_id nextId : Nat)
    (now : Nat) :
    Except PyExc (WorkflowExecution × List StepExecution × List Event) :=
  match db.executions.find? (fun w => w.id == workflow_execution_id) with
  | none => .error (.valueError "Workflow execution not found")
  | some we =>
    match db.step_executions.find?
        (fun s => s.id == retry_step_execution_id) with
    | none => .error (.valueError "Step execution not found")
    | some se =>
      match db.workflows.find? (fun w => w.id == we.workflow_id),
            db.steps.find? (fun s => s.id == se.step_id) with
      | some workflow, some step =>
        let we1 :=
          if we.status = .failed then { we with status := .running } else we
        let input_data := se.input
        let retry_att : StepExecution :=
          { id := nextId
            workflow_execution_id := we1.id
            step_id := step.id
            status := .pending
            input := input_data
            retry_count := se.retry_count + 1
            is_retry := true
            parent_step_execution_id := some se.id }
        let existing := db.step_executions.filter
          (fun s => s.workflow_execution_id == we1.id)
        match executeSingleStep behavior step retry_att workflow.id we1.id
            .null input_data now with
        | .error e => .error e
        | .ok out =>
          if out.result.status == "success" then
            match StepExecution.transition_to out.attempt .success now with
            | (_, some e) => .error e
            | (se2, none) =>
              let fin := { se2 with output := some out.result.output }
              let next_steps :=
                sortByOrder (db.steps.filter (fun s =>
                  s.workflow_id == workflow.id &&
                  decide (step.order < s.order)))
              match executeStepsGo behavior we1.id workflow.id .null now
                  next_steps out.result.output (nextId + 1) with
              | .error e => .error e
              | .ok (as2, evs2) =>
                let all_ses := existing ++ fin :: as2
                match completeWorkflowExecution we1 all_ses now with
                | .error e => .error e
                | .ok we2 =>
                  .ok (we2, all_ses, out.events ++ evs2)
          else
            match StepExecution.transition_to out.attempt .failed now with
            | (_, some e) => .error e
            | (se2, none) =>
              let fin := setError se2 out.result
              let all_ses := existing ++ [fin]
              match completeWorkflowExecution we1 all_ses now with
              | .error e => .error e
              | .ok we2 => .ok (we2, all_ses, out.events)
      | _, _ => .error .attributeError

/-- The retry condition of `_should_retry` read off the persisted fields of
a failed attempt record (the record's `error_type` column holds the
result's `error.error_type` once `setError` ran): transient error, truthy
retry config, `retry_count < max_retries`. -/
def recordRetryCond (step : Step) (x : StepExecution) : Bool :=
  (x.error_type == some "transient") &&
  (match step.retry_config with
   | some rc => decide (x.retry_count < rc.max_retries.getD 0)
   | none => false)

theorem pending_to_running (a : StepExecution)
    (ha : a.status = .pending) (now : Nat) :
    StepExecution.transition_to a .running now =
      ({ a with status := .running, started_at := some now }, none) := by
  simp [StepExecution.transition_to, ha, StepExecutionStatus.isTerminal,
    stepValidTransition]

theorem running_to_success (a : StepExecution)
    (ha : a.status = .running) (now : Nat) :
    StepExecution.transition_to a .success now =
      ({ a with status := .success, finished_at := some now }, none) := by
  simp [StepExecution.transition_to, ha, StepExecutionStatus.isTerminal,
    stepValidTransition]

theorem running_to_failed (a : StepExecution)
    (ha : a.status = .running) (now : Nat) :
    StepExecution.transition_to a .failed now =
      ({ a with status := .failed, finished_at := some now }, none) := by
  simp [StepExecution.transition_to, ha, StepExecutionStatus.isTerminal,
    stepValidTransition]

theorem runStepBody_ok {o : StepOutcome} {step : Step} {rc : Nat}
    {ci : Value} {now : Nat} {evs : List Event} {r : StepResult}
    (h : runStepBody o step rc ci now = .ok (evs, r)) :
    evs = [.invoke step.id rc ci] := by
  unfold runStepBody at h
  cases o with
  | returns r' =>
    simp only at h
    by_cases hs : (r'.status == "success") = true
    · rw [if_pos hs] at h
      rcases hsch : step.output_schema with _ | sch <;> rw [hsch] at h <;>
        simp only at h
      · simp only [Except.ok.injEq, Prod.mk.injEq] at h
        exact h.1.symm
      · by_cases hv : sch r'.output = true
        · rw [if_pos hv] at h
          simp only [Except.ok.injEq, Prod.mk.injEq] at h
          exact h.1.symm
        · rw [if_neg hv] at h
          simp only [Except.ok.injEq, Prod.mk.injEq] at h
          exact h.1.symm
    · rw [if_neg hs] at h
      simp only [Except.ok.injEq, Prod.mk.injEq] at h
      exact h.1.symm
  | timesOut =>
    simp only [Except.ok.injEq, Prod.mk.injEq] at h
    exact h.1.symm
  | raises msg =>
    simp only at h
    simp at h

theorem executeSingleStep_events {behavior : Behavior} {step : Step}
    {se : StepExecution} {wid weid : Nat} {ti ci : Value} {now : Nat}
    {out : SingleStepOut}
    (h : executeSingleStep behavior step se wid weid ti ci now = .ok out) :
    out.events = [] ∨ out.events = [.invoke step.id se.retry_count ci] := by
  unfold executeSingleStep at h
  rcases htr : StepExecution.transition_to se .running now with ⟨se2, exc⟩
  rw [htr] at h
  have hrc : se2.retry_count = se.retry_count := by
    have := congrArg (fun p => p.1.retry_count) htr
    simpa [StepExecution.transition_to_fst_retry_count] using this.symm
  cases exc with
  | some e => simp at h
  | none =>
    simp only at h
    rcases hsch : step.input_schema with _ | sch <;> rw [hsch] at h
    · rcases hb : runStepBody (behavior step.id se2.retry_count) step
          se2.retry_count ci now with e | ⟨evs, r⟩ <;> rw [hb] at h
      · simp at h
      · simp only [Except.ok.injEq] at h
        right
        rw [← h]
        simpa [hrc] using runStepBody_ok hb
    · simp only at h
      by_cases hv : sch (wrapInput ci) = true
      · rw [if_pos hv] at h
        rcases hb : runStepBody (behavior step.id se2.retry_count) step
            se2.retry_count ci now with e | ⟨evs, r⟩ <;> rw [hb] at h
        · simp at h
        · simp only [Except.ok.injEq] at h
          right
          rw [← h]
          simpa [hrc] using runStepBody_ok hb
      · rw [if_neg hv] at h
        simp only [Except.ok.injEq] at h
        left
        rw [← h]

theorem setError_id (se : StepExecution) (r : StepResult) :
    (setError se r).id = se.id := by
  unfold setError; split <;> rfl

theorem setError_input (se : StepExecution) (r : StepResult) :
    (setError se r).input = se.input := by
  unfold setError; split <;> rfl

theorem setError_is_retry (se : StepExecution) (r : StepResult) :
    (setError se r).is_retry = se.is_retry := by
  unfold setError; split <;> rfl

theorem setError_parent (se : StepExecution) (r : StepResult) :
    (setError se r).parent_step_execution_id =
      se.parent_step_execution_id := by
  unfold setError; split <;> rfl

theorem setError_step_id (se : StepExecution) (r : StepResult) :
    (setError se r).step_id = se.step_id := by
  unfold setError; split <;> rfl

theorem setError_weid (se : StepExecution) (r : StepResult) :
    (setError se r).workflow_execution_id = se.workflow_execution_id := by
  unfold setError; split <;> rfl

theorem setError_status (se : StepExecution) (r : StepResult) :
    (setError se r).status = se.status := by
  unfold setError; split <;> rfl

theorem should_retry_setError (step : Step) (se2 : StepExecution)
    (r : StepResult) (h : se2.error_type = none) :
    should_retry step (setError se2 r) r =
      recordRetryCond step (setError se2 r) := by
  unfold should_retry setError recordRetryCond
  rcases hr : r.error with _ | err
  · simp [h, hr]
  · by_cases ht : err.error_type = "transient" <;>
      rcases hrc : step.retry_config with _ | rc <;>
      simp [ht, hrc]

/-- Whether an event is the backoff sleep. -/
def Event.isSleep : Event → Bool
  | .sleep _ => true
  | _ => false

theorem stepLoop_eq (behavior : Behavior) (step : Step)
    (wid weid : Nat) (ti : Value) (a : StepExecution) (ci : Value)
    (now : Nat) :
    stepLoop behavior step wid weid ti a ci now =
      match executeSingleStep behavior step a wid weid ti ci now with
      | .error e => .error e
      | .ok out =>
        if out.result.status == "success" then
          match StepExecution.transition_to out.attempt .success now with
          | (_, some e) => .error e
          | (se2, none) =>
            .ok ([{ se2 with output := some out.result.output }], out.events,
                 { se2 with output := some out.result.output }, out.result)
        else
          match StepExecution.transition_to out.attempt .failed now with
          | (_, some e) => .error e
          | (se2, none) =>
            if should_retry step (setError se2 out.result) out.result then
              match stepLoop behavior step wid weid ti
                  (mkRetryAttempt ((setError se2 out.result).id + 1) weid
                    step (setError se2 out.result) ci) ci now with
              | .error e => .error e
              | .ok (as, evs, last, res) =>
                .ok (setError se2 out.result :: as,
                     out.events ++ .sleep (backoffFor step) :: evs, last, res)
            else
              .ok ([setError se2 out.result], out.events,
                   setError se2 out.result, out.result) := by
  rw [stepLoop]
  rcases h1 : executeSingleStep behavior step a wid weid ti ci now
      with e | out <;> simp only [h1]
  split <;> rename_i hs
  · rcases h2 : StepExecution.transition_to out.attempt .success now
        with ⟨se2, _ | e⟩ <;> simp only [h2]
  · rcases h2 : StepExecution.transition_to out.attempt .failed now
        with ⟨se2, _ | e⟩ <;> simp only [h2]
    split <;> rename_i hr
    · rcases h3 : stepLoop behavior step wid weid ti
          (mkRetryAttempt ((setError se2 out.result).id + 1) weid
            step (setError se2 out.result) ci) ci now
          with e | ⟨as, evs, last, res⟩ <;> simp only [h3]
    · rfl

/-- Master characterization of the retry loop for one step, starting from a
freshly created attempt: the produced attempt records form a linear chain
with consecutive `retry_count`, every record is terminal (SUCCESS or
FAILED), every non-final record is FAILED and satisfies the retry
condition, the final record fails the retry condition if FAILED, the final
record is SUCCESS exactly when the final result is a success, the only
sleeps are the configured backoff (one per retry), and every step
invocation receives the raw current input. -/
theorem stepLoop_spec (behavior : Behavior) (step : Step)
    (wid weid : Nat) (ti : Value) :
    ∀ (a : StepExecution) (ci : Value) (now : Nat),
    a.status = .pending → a.error_type = none → a.input = wrapInput ci →
    a.step_id = step.id → a.workflow_execution_id = weid →
    ∀ as evs last res,
    stepLoop behavior step wid weid ti a ci now = .ok (as, evs, last, res) →
      (as ≠ [] ∧ as.getLast? = some last)
    ∧ (∀ h ∈ as.head?, h.id = a.id ∧ h.retry_count = a.retry_count ∧
        h.input = a.input ∧ h.is_retry = a.is_retry ∧
        h.parent_step_execution_id = a.parent_step_execution_id)
    ∧ (∀ x ∈ as, (x.status = .success ∨ x.status = .failed) ∧
        x.step_id = step.id ∧ x.workflow_execution_id = weid ∧
        x.input = wrapInput ci)
    ∧ (∀ i (hi : i < as.length), (as[i]).retry_count = a.retry_count + i)
    ∧ (∀ i (hi : i + 1 < as.length),
        (as[i]).status = .failed ∧ recordRetryCond step (as[i]) = true ∧
        (as[i+1]).is_retry = true ∧
        (as[i+1]).parent_step_execution_id = some (as[i]).id)
    ∧ (last.status = .failed → recordRetryCond step last = false)
    ∧ (last.status = .success ↔ (res.status == "success") = true)
    ∧ (∀ e ∈ evs, (∀ s, e = .sleep s → s = backoffFor step) ∧
        (∀ sid rc inp, e = .invoke sid rc inp → inp = ci ∧ sid = step.id))
    ∧ evs.countP Event.isSleep = as.length - 1 := by
  intro a ci now
  induction a, ci, now using stepLoop.induct behavior step wid weid ti with
  | case1 a ci now e heq =>
    intro _ _ _ _ _ as evs last res hstep
    rw [stepLoop_eq, heq] at hstep
    simp at hstep
  | case2 a ci now out heq hs fst e h2 =>
    intro ha _ _ _ _ as evs last res hstep
    have hatt : out.attempt =
        { a with status := .running, started_at := some now } := by
      rw [executeSingleStep_attempt heq, pending_to_running a ha]
    rw [hatt, running_to_success
      { a with status := .running, started_at := some now } rfl now] at h2
    simp at h2
  | case3 a ci now out heq hs se2 h2 =>
    intro ha herr hain hsid hweid as evs last res hstep
    have hatt : out.attempt =
        { a with status := .running, started_at := some now } := by
      rw [executeSingleStep_attempt heq, pending_to_running a ha]
    rw [stepLoop_eq, heq] at hstep
    simp only at hstep
    rw [if_pos hs, hatt, running_to_success
      { a with status := .running, started_at := some now } rfl now] at hstep
    simp only at hstep
    simp only [Except.ok.injEq, Prod.mk.injEq] at hstep
    obtain ⟨has, hevs, hlast, hres⟩ := hstep
    subst has hevs hlast hres
    have hevents := executeSingleStep_events heq
    refine ⟨⟨by simp, by simp⟩, ?_, ?_, ?_, ?_, ?_, ?_, ?_, ?_⟩
    · intro h hh
      simp only [List.head?_cons, Option.mem_def, Option.some.injEq] at hh
      subst hh
      exact ⟨rfl, rfl, rfl, rfl, rfl⟩
    · intro x hx
      simp only [List.mem_singleton] at hx
      subst hx
      exact ⟨Or.inl rfl, hsid, hweid, hain ▸ rfl⟩
    · intro i hi
      simp only [List.length_singleton, Nat.lt_one_iff] at hi
      subst hi
      rfl
    · intro i hi
      simp at hi
    · intro hlf
      simp at hlf
    · exact ⟨fun _ => hs, fun _ => rfl⟩
    · intro e he
      rcases hevents with h0 | h0 <;> rw [h0] at he
      · simp at he
      · simp only [List.mem_singleton] at he
        subst he
        refine ⟨fun s hss => by simp at hss, fun sid rc inp hinv => ?_⟩
        simp only [Event.invoke.injEq] at hinv
        exact ⟨hinv.2.2.symm, hinv.1.symm⟩
    · rcases hevents with h0 | h0 <;> rw [h0] <;> simp [Event.isSleep]
  | case4 a ci now out heq hs fst e h2 =>
    intro ha _ _ _ _ as evs last res hstep
    have hatt : out.attempt =
        { a with status := .running, started_at := some now } := by
      rw [executeSingleStep_attempt heq, pending_to_running a ha]
    rw [hatt, running_to_failed
      { a with status := .running, started_at := some now } rfl now] at h2
    simp at h2
  | case5 a ci now out heq hs se2 h2 fin hr e h3 ih =>
    intro ha _ _ _ _ as evs last res hstep
    have hr2 : should_retry step (setError se2 out.result) out.result =
        true := hr
    have h3x : stepLoop behavior step wid weid ti
        (mkRetryAttempt ((setError se2 out.result).id + 1) weid step
          (setError se2 out.result) ci) ci now = .error e := h3
    rw [stepLoop_eq, heq] at hstep
    simp only at hstep
    rw [if_neg hs, h2] at hstep
    simp only at hstep
    rw [if_pos hr2, h3x] at hstep
    simp at hstep
  | case6 a ci now out heq hs se2 h2 fin hr as' evs' last' res' h3 ih =>
    intro ha herr hain hsid hweid as evs last res hstep
    have hr2 : should_retry step (setError se2 out.result) out.result =
        true := hr
    have h3x : stepLoop behavior step wid weid ti
        (mkRetryAttempt ((setError se2 out.result).id + 1) weid step
          (setError se2 out.result) ci) ci now =
        .ok (as', evs', last', res') := h3
    rw [stepLoop_eq, heq] at hstep
    simp only at hstep
    rw [if_neg hs, h2] at hstep
    simp only at hstep
    rw [if_pos hr2, h3x] at hstep
    simp only at hstep
    simp only [Except.ok.injEq, Prod.mk.injEq] at hstep
    obtain ⟨has, hevs, hlast, hres⟩ := hstep
    subst has hevs hlast hres
    have hatt : out.attempt =
        { a with status := .running, started_at := some now } := by
      rw [executeSingleStep_attempt heq, pending_to_running a ha]
    rw [hatt, running_to_failed
      { a with status := .running, started_at := some now } rfl now] at h2
    simp only [Prod.mk.injEq, and_true] at h2
    have hse2 : se2 =
        { a with
          status := .failed
          started_at := some now
          finished_at := some now } := h2.symm
    have hFst : (setError se2 out.result).status = .failed := by
      rw [setError_status, hse2]
    have hFrc : (setError se2 out.result).retry_count = a.retry_count := by
      rw [setError_retry_count, hse2]
    have hFid : (setError se2 out.result).id = a.id := by
      rw [setError_id, hse2]
    have hFin : (setError se2 out.result).input = a.input := by
      rw [setError_input, hse2]
    have hFsid : (setError se2 out.result).step_id = step.id := by
      rw [setError_step_id, hse2]; exact hsid
    have hFweid :
        (setError se2 out.result).workflow_execution_id = weid := by
      rw [setError_weid, hse2]; exact hweid
    have hFir : (setError se2 out.result).is_retry = a.is_retry := by
      rw [setError_is_retry, hse2]
    have hFpar : (setError se2 out.result).parent_step_execution_id =
        a.parent_step_execution_id := by
      rw [setError_parent, hse2]
    have hFet : se2.error_type = none := by rw [hse2]; exact herr
    have hFcond : recordRetryCond step (setError se2 out.result) = true := by
      rw [← should_retry_setError step se2 out.result hFet]
      exact hr2
    have hind := ih rfl rfl rfl rfl rfl as' evs' last' res' h3
    obtain ⟨⟨hne', hlast'⟩, hhead', hall', hcnt', hchain', hfin', hiff',
      hev', hslp'⟩ := hind
    have hsuccrc : (mkRetryAttempt ((setError se2 out.result).id + 1) weid
        step (setError se2 out.result) ci).retry_count =
        a.retry_count + 1 := by
      show (setError se2 out.result).retry_count + 1 = a.retry_count + 1
      rw [hFrc]
    have hevents := executeSingleStep_events heq
    rcases has' : as' with _ | ⟨y, ys⟩
    · exact absurd has' hne'
    subst has'
    refine ⟨⟨by simp, ?_⟩, ?_, ?_, ?_, ?_, ?_, ?_, ?_, ?_⟩
    · rw [List.getLast?_cons_cons]
      exact hlast'
    · intro h hh
      simp only [List.head?_cons, Option.mem_def, Option.some.injEq] at hh
      subst hh
      exact ⟨hFid, hFrc, hFin, hFir, hFpar⟩
    · intro x hx
      rcases List.mem_cons.mp hx with hx | hx
      · subst hx
        exact ⟨Or.inr hFst, hFsid, hFweid, by rw [hFin, hain]⟩
      · exact hall' x hx
    · intro i hi
      cases i with
      | zero => simpa using hFrc
      | succ j =>
        simp only [List.length_cons, Nat.add_lt_add_iff_right] at hi
        have hj := hcnt' j hi
        rw [hsuccrc] at hj
        simp only [List.getElem_cons_succ]
        rw [hj]
        omega
    · intro i hi
      cases i with
      | zero =>
        have hy := hhead' y rfl
        refine ⟨hFst, hFcond, ?_, ?_⟩
        · simp only [List.getElem_cons_succ, List.getElem_cons_zero]
          rw [hy.2.2.2.1]
          rfl
        · simp only [List.getElem_cons_succ, List.getElem_cons_zero]
          rw [hy.2.2.2.2]
          rfl
      | succ j =>
        simp only [List.length_cons, Nat.add_lt_add_iff_right] at hi
        have hj := hchain' j (by simp only [List.length_cons]; omega)
        simpa only [List.getElem_cons_succ] using hj
    · exact hfin'
    · exact hiff'
    · intro ev hev
      rcases List.mem_append.mp hev with hev | hev
      · rcases hevents with h0 | h0 <;> rw [h0] at hev
        · simp at hev
        · simp only [List.mem_singleton] at hev
          subst hev
          refine ⟨fun s hss => by simp at hss, fun sid rc inp hinv => ?_⟩
          simp only [Event.invoke.injEq] at hinv
          exact ⟨hinv.2.2.symm, hinv.1.symm⟩
      · rcases List.mem_cons.mp hev with hev | hev
        · subst hev
          refine ⟨fun s hss => ?_, fun sid rc inp hinv => by simp at hinv⟩
          simp only [Event.sleep.injEq] at hss
          exact hss.symm
        · exact hev' ev hev
    · rw [List.countP_append, List.countP_cons]
      have hinvcnt : out.events.countP Event.isSleep = 0 := by
        rcases hevents with h0 | h0 <;> rw [h0] <;> simp [Event.isSleep]
      rw [hinvcnt, hslp']
      simp only [Event.isSleep, if_true, List.length_cons]
      omega
  | case7 a ci now out heq hs se2 h2 fin hr =>
    intro ha herr hain hsid hweid as evs last res hstep
    have hr2 : ¬ should_retry step (setError se2 out.result) out.result =
        true := hr
    rw [stepLoop_eq, heq] at hstep
    simp only at hstep
    rw [if_neg hs, h2] at hstep
    simp only at hstep
    rw [if_neg hr2] at hstep
    simp only [Except.ok.injEq, Prod.mk.injEq] at hstep
    obtain ⟨has, hevs, hlast, hres⟩ := hstep
    subst has hevs hlast hres
    have hatt : out.attempt =
        { a with status := .running, started_at := some now } := by
      rw [executeSingleStep_attempt heq, pending_to_running a ha]
    rw [hatt, running_to_failed
      { a with status := .running, started_at := some now } rfl now] at h2
    simp only [Prod.mk.injEq, and_true] at h2
    have hse2 : se2 =
        { a with
          status := .failed
          started_at := some now
          finished_at := some now } := h2.symm
    have hFst : (setError se2 out.result).status = .failed := by
      rw [setError_status, hse2]
    have hFet : se2.error_type = none := by rw [hse2]; exact herr
    have hFcond :
        recordRetryCond step (setError se2 out.result) = false := by
      rw [← should_retry_setError step se2 out.result hFet]
      exact Bool.eq_false_iff.mpr (fun hc => hr2 hc)
    have hevents := executeSingleStep_events heq
    refine ⟨⟨by simp, by simp⟩, ?_, ?_, ?_, ?_, ?_, ?_, ?_, ?_⟩
    · intro h hh
      simp only [List.head?_cons, Option.mem_def, Option.some.injEq] at hh
      subst hh
      refine ⟨?_, ?_, ?_, ?_, ?_⟩
      · rw [setError_id, hse2]
      · rw [setError_retry_count, hse2]
      · rw [setError_input, hse2]
      · rw [setError_is_retry, hse2]
      · rw [setError_parent, hse2]
    · intro x hx
      simp only [List.mem_singleton] at hx
      subst hx
      refine ⟨Or.inr hFst, ?_, ?_, ?_⟩
      · rw [setError_step_id, hse2]; exact hsid
      · rw [setError_weid, hse2]; exact hweid
      · rw [setError_input, hse2]; exact hain
    · intro i hi
      simp only [List.length_singleton, Nat.lt_one_iff] at hi
      subst hi
      simp only [List.getElem_cons_zero]
      rw [setError_retry_count, hse2]
      rfl
    · intro i hi
      simp at hi
    · intro _
      exact hFcond
    · constructor
      · intro hcontra
        rw [hFst] at hcontra
        simp at hcontra
      · intro hcontra
        exact absurd hcontra hs
    · intro e he
      rcases hevents with h0 | h0 <;> rw [h0] at he
      · simp at he
      · simp only [List.mem_singleton] at he
        subst he
        refine ⟨fun s hss => by simp at hss, fun sid rc inp hinv => ?_⟩
        simp only [Event.invoke.injEq] at hinv
        exact ⟨hinv.2.2.symm, hinv.1.symm⟩
    · rcases hevents with h0 | h0 <;> rw [h0] <;> simp [Event.isSleep]

def sampleWE : WorkflowExecution :=
  { id := 100
    workflow_id := 1
    workflow_version := 1
    status := .pending
    trigger_source := "manual" }

/-- A sample step-attempt record used to instantiate theorems. -/
def sampleSE : StepExecution :=
  { id := 1000
    workflow_execution_id := 100
    step_id := 10
    status := .pending
    input := .obj [("value", .int 3)] }

/-- C6: for both state machines, `transition_to(new)` succeeds exactly when
the pair (current, new) is in the static table (PENDING→RUNNING and
RUNNING→{SUCCESS, FAILED, CANCELLED} for workflows, resp.
RUNNING→{SUCCESS, FAILED, SKIPPED} for attempts); any call from a terminal
state, and any pair outside the table, raises an invalid-transition error
and returns the record unchanged, so a terminal record is never changed by
a state-machine call. -/
theorem c6_transition_table (w : WorkflowExecution)
    (nw : WorkflowExecutionStatus) (s : StepExecution)
    (ns : StepExecutionStatus) (now : Nat) :
    (((WorkflowExecution.transition_to w nw now).2 = none) ↔
      (w.status, nw) ∈ workflowTransitionTable)
    ∧ ((WorkflowExecution.transition_to w nw now).2.isSome →
        (WorkflowExecution.transition_to w nw now).1 = w)
    ∧ (w.status.isTerminal = true →
        (WorkflowExecution.transition_to w nw now).2.isSome)
    ∧ (((StepExecution.transition_to s ns now).2 = none) ↔
        (s.status, ns) ∈ stepTransitionTable)
    ∧ ((StepExecution.transition_to s ns now).2.isSome →
        (StepExecution.transition_to s ns now).1 = s)
    ∧ (s.status.isTerminal = true →
        (StepExecution.transition_to s ns now).2.isSome) := by
  refine ⟨?_, ?_, ?_, ?_, ?_, ?_⟩
  · cases hw : w.status <;> cases nw <;>
      simp [WorkflowExecution.transition_to, hw, workflowValidTransition,
        workflowTransitionTable, WorkflowExecutionStatus.isTerminal]
  · cases hw : w.status <;> cases nw <;>
      simp [WorkflowExecution.transition_to, hw, workflowValidTransition,
        WorkflowExecutionStatus.isTerminal]
  · cases hw : w.status <;>
      simp [WorkflowExecution.transition_to, hw, workflowValidTransition,
        WorkflowExecutionStatus.isTerminal]
  · cases hs : s.status <;> cases ns <;>
      simp [StepExecution.transition_to, hs, stepValidTransition,
        stepTransitionTable, StepExecutionStatus.isTerminal]
  · cases hs : s.status <;> cases ns <;>
      simp [StepExecution.transition_to, hs, stepValidTransition,
        StepExecutionStatus.isTerminal]
  · cases hs : s.status <;>
      simp [StepExecution.transition_to, hs, stepValidTransition,
        StepExecutionStatus.isTerminal]

/-- Witness for C6 at concrete records: a terminal (SUCCESS) workflow
refuses a transition and stays unchanged, while PENDING→RUNNING is in the
table. -/
theorem c6_transition_table_witness :
    ((WorkflowExecution.transition_to
        { sampleWE with status := .success } .running 7).2.isSome)
    ∧ ((WorkflowExecution.transition_to
        { sampleWE with status := .success } .running 7).1 =
        { sampleWE with status := .success }) := by
  have h := c6_transition_table { sampleWE with status := .success } .running
    sampleSE .running 7
  have h1 := h.2.2.1 (by rfl)
  exact ⟨h1, h.2.1 h1⟩

/-- C9: the `ExecutionContext` dataclass declares no `retry_count` field,
so the keyword call the executor makes (which includes `retry_count=`) is
not accepted by the dataclass's generated init — it raises `TypeError`
instead of producing a context carrying the attempt's `retry_count`. -/
theorem c9_context_lacks_retry_count :
    dataclassCallAccepted executionContextFieldNames
      executorContextCallKwargs = false
    ∧ executionContextFieldNames.contains "retry_count" = false
    ∧ executorContextCallKwargs.contains "retry_count" = true := by
  decide

/-- The input-validation verdict of `_execute_single_step`: vacuously true
without a (truthy) schema, else the schema's verdict on the wrapped
input. -/
def inputOk (step : Step) (ci : Value) : Bool :=
  match step.input_schema with
  | some sch => sch (wrapInput ci)
  | none => true

theorem executeSingleStep_pending (behavior : Behavior) (step : Step)
    (se : StepExecution) (wid weid : Nat) (ti ci : Value) (now : Nat)
    (ha : se.status = .pending) (hin : inputOk step ci = true) :
    executeSingleStep behavior step se wid weid ti ci now =
      match runStepBody (behavior step.id se.retry_count) step
          se.retry_count ci now with
      | .error e => .error e
      | .ok (evs, r) =>
        .ok { attempt := { se with status := .running, started_at := some now }
              context :=
                { workflow_execution_id := weid
                  step_execution_id := se.id
                  workflow_id := wid
                  step_id := step.id
                  trigger_input := ti
                  retry_count := se.retry_count }
              events := evs
              result := r } := by
  unfold executeSingleStep
  rw [pending_to_running se ha]
  simp only
  unfold inputOk at hin
  rcases hsch : step.input_schema with _ | sch
  · rfl
  · rw [hsch] at hin
    simp only at hin
    simp [hin]

theorem executeSingleStep_invalid (behavior : Behavior) (step : Step)
    (se : StepExecution) (wid weid : Nat) (ti ci : Value) (now : Nat)
    (sch : Value → Bool)
    (ha : se.status = .pending) (hsch : step.input_schema = some sch)
    (hv : sch (wrapInput ci) = false) :
    executeSingleStep behavior step se wid weid ti ci now =
      .ok { attempt := { se with status := .running, started_at := some now }
            context :=
              { workflow_execution_id := weid
                step_execution_id := se.id
                workflow_id := wid
                step_id := step.id
                trigger_input := ti
                retry_count := se.retry_count }
            events := []
            result := inputValidationFailure } := by
  unfold executeSingleStep
  rw [pending_to_running se ha]
  simp only
  rw [hsch]
  simp only
  rw [if_neg (by simp [hv])]

/-- C7: a step invocation that exceeds the wall-clock deadline
(`FunctionTimedOut`) yields a FAILED result with code TIMEOUT and
error_type "transient" (hence passing the transient gate of the retry
rule), with synthesized metadata whose `duration_ms` is
`timeout_seconds * 1000`, i.e. the elapsed time up to the deadline. -/
theorem c7_timeout_result (behavior : Behavior) (step : Step)
    (se : StepExecution) (wid weid : Nat) (ti ci : Value) (now : Nat)
    (ha : se.status = .pending) (hin : inputOk step ci = true)
    (hto : behavior step.id se.retry_count = .timesOut) :
    ∃ out, executeSingleStep behavior step se wid weid ti ci now = .ok out
      ∧ out.result = timeoutFailure step now
      ∧ out.result.status = "failure"
      ∧ out.result.error.map (fun e => e.code) = some "TIMEOUT"
      ∧ out.result.error.map (fun e => e.error_type) = some "transient"
      ∧ out.result.metadata.map (fun m => m.duration_ms) =
          some (step.timeout_seconds * 1000)
      ∧ (∀ a2 rc, step.retry_config = some rc →
          a2.retry_count < rc.max_retries.getD 0 →
          should_retry step a2 out.result = true) := by
  rw [executeSingleStep_pending behavior step se wid weid ti ci now ha hin,
    hto]
  simp only [runStepBody]
  refine ⟨_, rfl, rfl, rfl, rfl, rfl, rfl, ?_⟩
  intro a2 rc hrc hlt
  simp only [should_retry, timeoutFailure]
  rw [hrc]
  simpa using hlt

/-- Witness data: a step with a 2-second timeout and a retry config
allowing 3 retries with no backoff. -/
def sampleStep : Step :=
  { id := 10
    workflow_id := 1
    order := 1
    timeout_seconds := 2
    retry_config := some { max_retries := some 3, backoff_seconds := some 0 } }

/-- A behaviour whose step never returns before the deadline. -/
def timeoutBehavior : Behavior := fun _ _ => .timesOut

/-- Witness for C7 at a concrete step, attempt and behaviour. -/
theorem c7_timeout_result_witness :
    ∃ out, executeSingleStep timeoutBehavior sampleStep sampleSE 1 100
        .null (.int 5) 0 = .ok out
      ∧ out.result = timeoutFailure sampleStep 0
      ∧ out.result.status = "failure"
      ∧ out.result.error.map (fun e => e.code) = some "TIMEOUT"
      ∧ out.result.error.map (fun e => e.error_type) = some "transient"
      ∧ out.result.metadata.map (fun m => m.duration_ms) = some 2000
      ∧ (∀ a2 rc, sampleStep.retry_config = some rc →
          a2.retry_count < rc.max_retries.getD 0 →
          should_retry sampleStep a2 out.result = true) :=
  c7_timeout_result timeoutBehavior sampleStep sampleSE 1 100 .null
    (.int 5) 0 rfl rfl rfl

/-- C8: when the step has a (truthy) input schema and the wrapped current
input fails validation, the attempt's result is the synthesized FAILED
VALIDATION_ERROR/permanent result, the step implementation is never
invoked (no invoke event, and the outcome is the same for every
behaviour), and the result never qualifies for a retry even when a retry
config is present. -/
theorem c8_validation_failure (behavior behavior2 : Behavior) (step : Step)
    (se : StepExecution) (wid weid : Nat) (ti ci : Value) (now : Nat)
    (sch : Value → Bool)
    (ha : se.status = .pending) (hsch : step.input_schema = some sch)
    (hv : sch (wrapInput ci) = false) :
    executeSingleStep behavior step se wid weid ti ci now =
      .ok { attempt := { se with status := .running, started_at := some now }
            context :=
              { workflow_execution_id := weid
                step_execution_id := se.id
                workflow_id := wid
                step_id := step.id
                trigger_input := ti
                retry_count := se.retry_count }
            events := []
            result := inputValidationFailure }
    ∧ executeSingleStep behavior step se wid weid ti ci now =
        executeSingleStep behavior2 step se wid weid ti ci now
    ∧ inputValidationFailure.status = "failure"
    ∧ inputValidationFailure.error.map (fun e => e.code) =
        some "VALIDATION_ERROR"
    ∧ inputValidationFailure.error.map (fun e => e.error_type) =
        some "permanent"
    ∧ (∀ a2, should_retry step a2 inputValidationFailure = false) := by
  refine ⟨executeSingleStep_invalid behavior step se wid weid ti ci now sch
      ha hsch hv, ?_, rfl, rfl, rfl, ?_⟩
  · rw [executeSingleStep_invalid behavior step se wid weid ti ci now sch
      ha hsch hv,
      executeSingleStep_invalid behavior2 step se wid weid ti ci now sch
      ha hsch hv]
  · intro a2
    simp [should_retry, inputValidationFailure]

/-- A schema rejecting every value (extensional model of a JSON schema the
input does not satisfy). -/
def rejectAllSchema : Value → Bool := fun _ => false

/-- A step carrying the rejecting input schema and a retry config. -/
def schemaStep : Step :=
  { id := 11
    workflow_id := 1
    order := 1
    timeout_seconds := 30
    input_schema := some rejectAllSchema
    retry_config := some { max_retries := some 3, backoff_seconds := some 0 } }

/-- Witness for C8 at a concrete schema-rejecting step. -/
theorem c8_validation_failure_witness :
    executeSingleStep timeoutBehavior schemaStep
      { sampleSE with step_id := 11 } 1 100 .null (.int 5) 0 =
      .ok { attempt := { { sampleSE with step_id := 11 } with
              status := .running, started_at := some 0 }
            context :=
              { workflow_execution_id := 100
                step_execution_id := 1000
                workflow_id := 1
                step_id := 11
                trigger_input := .null
                retry_count := 0 }
            events := []
            result := inputValidationFailure }
    ∧ (∀ a2, should_retry schemaStep a2 inputValidationFailure = false) := by
  have h := c8_validation_failure timeoutBehavior timeoutBehavior schemaStep
    { sampleSE with step_id := 11 } 1 100 .null (.int 5) 0 rejectAllSchema
    rfl rfl rfl
  exact ⟨h.1, h.2.2.2.2.2⟩

/-- C2 (amended): an exception raised by a step implementation (other than
the timeout signal) is re-raised by `_execute_single_step` — it propagates
instead of being converted into a STEP_CRASH result. -/
theorem c2_amended_exception_reraised (behavior : Behavior) (step : Step)
    (se : StepExecution) (wid weid : Nat) (ti ci : Value) (now : Nat)
    (msg : String)
    (ha : se.status = .pending) (hin : inputOk step ci = true)
    (hb : behavior step.id se.retry_count = .raises msg) :
    executeSingleStep behavior step se wid weid ti ci now =
      .error (.stepException msg) := by
  rw [executeSingleStep_pending behavior step se wid weid ti ci now ha hin,
    hb]
  rfl

/-- A step implementation that raises `ValueError("boom")`. -/
def crashingBehavior : Behavior := fun _ _ => .raises "boom"

/-- Witness for the amended C2 at a concrete crashing step. -/
theorem c2_amended_exception_reraised_witness :
    executeSingleStep crashingBehavior sampleStep sampleSE 1 100 .null
      (.int 5) 0 = .error (.stepException "boom") :=
  c2_amended_exception_reraised crashingBehavior sampleStep sampleSE 1 100
    .null (.int 5) 0 "boom" rfl rfl rfl

/-- C2 counterexample: at a concrete crashing step the orchestration call
produces no StepResult at all — in particular not a FAILED result with code
STEP_CRASH — the exception escapes `_execute_single_step` (`raise e`,
linear_executor.py:468). -/
theorem c2_counterexample_no_step_crash :
    executeSingleStep crashingBehavior sampleStep sampleSE 1 100 .null
      (.int 5) 0 = .error (.stepException "boom")
    ∧ (∀ out, executeSingleStep crashingBehavior sampleStep sampleSE 1 100
        .null (.int 5) 0 ≠ .ok out) := by
  constructor
  · rfl
  · intro out h
    rw [show executeSingleStep crashingBehavior sampleStep sampleSE 1 100
        .null (.int 5) 0 = .error (.stepException "boom") from rfl] at h
    exact absurd h (by simp)

theorem runStepBody_input_schema (o : StepOutcome) (step : Step)
    (rc : Nat) (ci : Value) (now : Nat) (s : Option (Value → Bool)) :
    runStepBody o { step with input_schema := s } rc ci now =
      runStepBody o step rc ci now := by
  cases o <;> rfl

/-- C10: a non-mapping incoming value is wrapped as a one-key mapping for
both the persisted snapshot and the schema check, while the step
implementation receives the raw value; mapping inputs pass through
unchanged. -/
theorem c10_input_wrapping (behavior : Behavior) (step : Step)
    (se : StepExecution) (wid weid nid : Nat) (ti v : Value) (now : Nat)
    (rest : List Step) :
    (v.isDict = false → wrapInput v = .obj [("value", v)])
    ∧ (v.isDict = true → wrapInput v = v)
    ∧ (∀ ses evs a,
        executeStepsGo behavior weid wid ti now (step :: rest) v nid =
          .ok (ses, evs) → ses.head? = some a → a.input = wrapInput v)
    ∧ (∀ out, executeSingleStep behavior step se wid weid ti v now =
          .ok out →
        ∀ sid rc inp, Event.invoke sid rc inp ∈ out.events → inp = v)
    ∧ (∀ sch sch2, sch (wrapInput v) = sch2 (wrapInput v) →
        executeSingleStep behavior { step with input_schema := some sch }
          se wid weid ti v now =
        executeSingleStep behavior { step with input_schema := some sch2 }
          se wid weid ti v now) := by
  refine ⟨?_, ?_, ?_, ?_, ?_⟩
  · intro hv
    unfold wrapInput
    rw [hv]
    rfl
  · intro hv
    unfold wrapInput
    rw [hv]
    rfl
  · intro ses evs a h hhead
    simp only [executeStepsGo] at h
    rcases h3 : stepLoop behavior step wid weid ti
        { id := nid, workflow_execution_id := weid, step_id := step.id,
          status := .pending, input := wrapInput v } v now
        with e | ⟨as, evs0, last, res⟩ <;> rw [h3] at h
    · simp at h
    · have hm := stepLoop_spec behavior step wid weid ti
        { id := nid, workflow_execution_id := weid, step_id := step.id,
          status := .pending, input := wrapInput v } v now
        rfl rfl rfl rfl rfl as evs0 last res h3
      obtain ⟨⟨hne, _⟩, hhead2, _⟩ := hm
      rcases has : as with _ | ⟨h0, t⟩
      · exact absurd has hne
      have h0in : h0.input = wrapInput v := by
        have := hhead2 h0 (by rw [has]; rfl)
        exact this.2.2.1
      simp only at h
      by_cases hlf : last.status = .failed
      · rw [if_pos hlf] at h
        simp only [Except.ok.injEq, Prod.mk.injEq] at h
        rw [← h.1, has] at hhead
        simp only [List.head?_cons, Option.some.injEq] at hhead
        rw [← hhead]
        exact h0in
      · rw [if_neg hlf] at h
        rcases h4 : executeStepsGo behavior weid wid ti now rest res.output
            (nid + as.length) with e | ⟨as2, evs2⟩ <;> rw [h4] at h
        · simp at h
        · simp only [Except.ok.injEq, Prod.mk.injEq] at h
          rw [← h.1, has] at hhead
          simp only [List.cons_append, List.head?_cons,
            Option.some.injEq] at hhead
          rw [← hhead]
          exact h0in
  · intro out h sid rc inp hmem
    rcases executeSingleStep_events h with h0 | h0 <;> rw [h0] at hmem
    · simp at hmem
    · simp only [List.mem_singleton, Event.invoke.injEq] at hmem
      exact hmem.2.2
  · intro sch sch2 hvv
    unfold executeSingleStep
    rcases htr : StepExecution.transition_to se .running now with ⟨se2, exc⟩
    cases exc with
    | some e => rfl
    | none =>
      simp only [runStepBody_input_schema]
      rw [hvv]

/-- Witness for C10 at concrete values: a scalar is wrapped, a mapping
passes through. -/
theorem c10_input_wrapping_witness :
    wrapInput (.int 7) = .obj [("value", .int 7)]
    ∧ wrapInput (.obj [("a", .int 1)]) = .obj [("a", .int 1)] := by
  have h := c10_input_wrapping timeoutBehavior sampleStep sampleSE 1 100 0
    .null (.int 7) 0 []
  have h2 := c10_input_wrapping timeoutBehavior sampleStep sampleSE 1 100 0
    .null (.obj [("a", .int 1)]) 0 []
  exact ⟨h.1 rfl, h2.2.1 rfl⟩

theorem recordRetryCond_iff (step : Step) (x : StepExecution) :
    recordRetryCond step x = true ↔
      (x.error_type = some "transient" ∧
       ∃ rc, step.retry_config = some rc ∧
         x.retry_count < rc.max_retries.getD 0) := by
  unfold recordRetryCond
  rcases hrc : step.retry_config with _ | rc <;> simp [hrc]

/-- C3: (i) `_should_retry` says yes exactly for a transient error with a
truthy retry config and `retry_count < max_retries` — the error's
`retryable` flag is never consulted; (ii) the successor attempt is created
in PENDING with `retry_count+1`, `is_retry`, parent link and the same
(wrapped) input; (iii) along a run of the retry loop, a successor attempt
exists after an attempt exactly when that attempt is FAILED with a
transient persisted error class under an unexhausted retry config, the
successor carries the incremented `retry_count`, the parent link and the
same input, and each retry is preceded by a sleep of
`retry_config.backoff_seconds` (default 1). -/
theorem c3_retry_rule_and_successor (behavior : Behavior) (step : Step)
    (wid weid : Nat) (ti : Value) :
    (∀ se r, should_retry step se r = true ↔
      ((∃ err, r.error = some err ∧ err.error_type = "transient") ∧
       (∃ rc, step.retry_config = some rc ∧
         se.retry_count < rc.max_retries.getD 0)))
    ∧ (∀ se r b, should_retry step se
        { r with error := r.error.map (fun e => { e with retryable := b }) }
        = should_retry step se r)
    ∧ (∀ nid weid2 prev civ,
        (mkRetryAttempt nid weid2 step prev civ).status = .pending ∧
        (mkRetryAttempt nid weid2 step prev civ).retry_count =
          prev.retry_count + 1 ∧
        (mkRetryAttempt nid weid2 step prev civ).is_retry = true ∧
        (mkRetryAttempt nid weid2 step prev civ).parent_step_execution_id =
          some prev.id ∧
        (mkRetryAttempt nid weid2 step prev civ).input = wrapInput civ)
    ∧ (∀ a ci now as evs last res,
        a.status = .pending → a.error_type = none → a.input = wrapInput ci →
        a.step_id = step.id → a.workflow_execution_id = weid →
        stepLoop behavior step wid weid ti a ci now =
          .ok (as, evs, last, res) →
          (∀ i (hi : i + 1 < as.length),
            (as[i]).status = .failed ∧
            (as[i]).error_type = some "transient" ∧
            (∃ rc, step.retry_config = some rc ∧
              (as[i]).retry_count < rc.max_retries.getD 0) ∧
            (as[i+1]).retry_count = (as[i]).retry_count + 1 ∧
            (as[i+1]).is_retry = true ∧
            (as[i+1]).parent_step_execution_id = some (as[i]).id ∧
            (as[i+1]).input = (as[i]).input)
        ∧ (last.status = .failed →
            ¬(last.error_type = some "transient" ∧
              ∃ rc, step.retry_config = some rc ∧
                last.retry_count < rc.max_retries.getD 0))
        ∧ (∀ e ∈ evs, ∀ s, e = .sleep s → s = backoffFor step)
        ∧ evs.countP Event.isSleep = as.length - 1) := by
  refine ⟨?_, ?_, ?_, ?_⟩
  · intro se r
    unfold should_retry
    rcases herr : r.error with _ | err <;> simp [herr]
    by_cases ht : err.error_type = "transient" <;>
      rcases hrc : step.retry_config with _ | rc <;> simp [ht, hrc]
  · intro se r b
    unfold should_retry
    rcases herr : r.error with _ | err <;> simp [herr]
  · intro nid weid2 prev civ
    exact ⟨rfl, rfl, rfl, rfl, rfl⟩
  · intro a ci now as evs last res ha herr hain hsid hweid hloop
    obtain ⟨_, _, hall, hcnt, hchain, hfin, _, hev, hslp⟩ :=
      stepLoop_spec behavior step wid weid ti a ci now ha herr hain hsid
        hweid as evs last res hloop
    refine ⟨?_, ?_, ?_, hslp⟩
    · intro i hi
      obtain ⟨hst, hcond, hir, hpar⟩ := hchain i hi
      obtain ⟨het, rc, hrc, hlt⟩ := (recordRetryCond_iff step _).mp hcond
      refine ⟨hst, het, ⟨rc, hrc, hlt⟩, ?_, hir, hpar, ?_⟩
      · have h1 := hcnt i (by omega)
        have h2 := hcnt (i + 1) hi
        omega
      · have h1 := (hall (as[i]) (List.getElem_mem _)).2.2.2
        have h2 := (hall (as[i+1]) (List.getElem_mem _)).2.2.2
        rw [h1, h2]
    · intro hlf hcontra
      have htrue := (recordRetryCond_iff step last).mpr hcontra
      rw [hfin hlf] at htrue
      exact absurd htrue (by simp)
    · intro e he s hs
      exact (hev e he).1 s hs

/-- The output of the sample succeeding step. -/
def successOut : Value := .obj [("ok", .bool true)]

/-- A well-formed success result. -/
def successResult : StepResult :=
  { status := "success", output := successOut }

/-- A transient error as a step reports it. -/
def transientError : StepError :=
  { code := "TRANSIENT_ERROR", message := "fail", retryable := true,
    error_type := "transient" }

/-- A well-formed transient failure result. -/
def transientFailResult : StepResult :=
  { status := "failure", error := some transientError }

/-- A step implementation failing transiently on the first attempt and
succeeding on every retry. -/
def transientOnceBehavior : Behavior := fun _ rc =>
  if rc = 0 then .returns transientFailResult else .returns successResult

/-- The persisted first (failed) attempt of the sample retry run. -/
def c3FirstAttempt : StepExecution :=
  { id := 1000, workflow_execution_id := 100, step_id := 10,
    status := .failed, input := .obj [("value", .int 3)],
    output := none, error := some "TRANSIENT_ERROR: fail",
    error_type := some "transient", retry_count := 0, is_retry := false,
    parent_step_execution_id := none, started_at := some 0,
    finished_at := some 0 }

/-- The persisted retry attempt of the sample retry run. -/
def c3RetryAttempt : StepExecution :=
  { id := 1001, workflow_execution_id := 100, step_id := 10,
    status := .success, input := .obj [("value", .int 3)],
    output := some successOut, error := none, error_type := none,
    retry_count := 1, is_retry := true,
    parent_step_execution_id := some 1000, started_at := some 0,
    finished_at := some 0 }

/-- The retry attempt at its creation (PENDING). -/
def c3SuccessorPending : StepExecution :=
  { id := 1001, workflow_execution_id := 100, step_id := 10,
    status := .pending, input := .obj [("value", .int 3)],
    retry_count := 1, is_retry := true,
    parent_step_execution_id := some 1000 }

theorem c3_inner :
    stepLoop transientOnceBehavior sampleStep 1 100 .null
      c3SuccessorPending (.int 3) 0 =
      .ok ([c3RetryAttempt], [.invoke 10 1 (.int 3)], c3RetryAttempt,
           successResult) := by
  rw [stepLoop_eq]
  rfl

/-- The first attempt after its transition to RUNNING. -/
def c3RunningAttempt : StepExecution :=
  { sampleSE with status := .running, started_at := some 0 }

/-- The outcome of the first single-step execution of the sample run. -/
def c3Out0 : SingleStepOut :=
  { attempt := c3RunningAttempt
    context :=
      { workflow_execution_id := 100, step_execution_id := 1000,
        workflow_id := 1, step_id := 10, trigger_input := .null,
        retry_count := 0 }
    events := [.invoke 10 0 (.int 3)]
    result := transientFailResult }

/-- The first attempt after its transition to FAILED. -/
def c3Se2 : StepExecution :=
  { c3RunningAttempt with status := .failed, finished_at := some 0 }

theorem c3_run :
    stepLoop transientOnceBehavior sampleStep 1 100 .null sampleSE
      (.int 3) 0 =
      .ok ([c3FirstAttempt, c3RetryAttempt],
           [.invoke 10 0 (.int 3), .sleep 0, .invoke 10 1 (.int 3)],
           c3RetryAttempt, successResult) := by
  rw [stepLoop_eq]
  rw [show executeSingleStep transientOnceBehavior sampleStep sampleSE 1 100
      Value.null (Value.int 3) 0 = Except.ok c3Out0 from rfl]
  simp only
  rw [if_neg (show ¬((c3Out0.result.status == "success") = true) by decide)]
  rw [show StepExecution.transition_to c3Out0.attempt .failed 0 =
      (c3Se2, none) from rfl]
  simp only
  rw [if_pos (show should_retry sampleStep (setError c3Se2 c3Out0.result)
      c3Out0.result = true from rfl)]
  rw [show mkRetryAttempt ((setError c3Se2 c3Out0.result).id + 1) 100
      sampleStep (setError c3Se2 c3Out0.result) (Value.int 3) =
      c3SuccessorPending from rfl]
  rw [c3_inner]
  rfl

/-- Witness for C3 on a concrete run: one transient failure followed by a
successful retry, with the successor's fields as the claim states. -/
theorem c3_retry_rule_and_successor_witness :
    c3RetryAttempt.retry_count = c3FirstAttempt.retry_count + 1
    ∧ c3RetryAttempt.is_retry = true
    ∧ c3RetryAttempt.parent_step_execution_id = some c3FirstAttempt.id
    ∧ c3RetryAttempt.input = c3FirstAttempt.input
    ∧ c3FirstAttempt.status = .failed
    ∧ c3FirstAttempt.error_type = some "transient" := by
  have h := (c3_retry_rule_and_successor transientOnceBehavior sampleStep
      1 100 .null).2.2.2 sampleSE (.int 3) 0
      [c3FirstAttempt, c3RetryAttempt]
      [.invoke 10 0 (.int 3), .sleep 0, .invoke 10 1 (.int 3)]
      c3RetryAttempt successResult rfl rfl rfl rfl rfl c3_run
  have h0 := h.1 0 (by simp)
  exact ⟨h0.2.2.2.1, h0.2.2.2.2.1, h0.2.2.2.2.2.1, h0.2.2.2.2.2.2,
    h0.1, h0.2.1⟩

theorem upsertFinal_mem : ∀ (acc : List StepExecution)
    (se x : StepExecution), x ∈ upsertFinal acc se → x ∈ acc ∨ x = se := by
  intro acc
  induction acc with
  | nil =>
    intro se x hx
    simp [upsertFinal] at hx
    exact Or.inr hx
  | cons x0 xs ih =>
    intro se x hx
    unfold upsertFinal at hx
    by_cases hsid : x0.step_id = se.step_id
    · rw [if_pos hsid] at hx
      rcases List.mem_cons.mp hx with hx | hx
      · by_cases hgt : se.retry_count > x0.retry_count
        · rw [if_pos hgt] at hx
          exact Or.inr hx
        · rw [if_neg hgt] at hx
          subst hx
          exact Or.inl (List.mem_cons_self _ _)
      · exact Or.inl (List.mem_cons_of_mem x0 hx)
    · rw [if_neg hsid] at hx
      rcases List.mem_cons.mp hx with hx | hx
      · exact Or.inl (hx ▸ List.mem_cons_self x0 xs)
      · rcases ih se x hx with h | h
        · exact Or.inl (List.mem_cons_of_mem x0 h)
        · exact Or.inr h

theorem upsertFinal_covers_new : ∀ (acc : List StepExecution)
    (se : StepExecution),
    ∃ x ∈ upsertFinal acc se, x.step_id = se.step_id ∧
      se.retry_count ≤ x.retry_count := by
  intro acc
  induction acc with
  | nil =>
    intro se
    exact ⟨se, by simp [upsertFinal]⟩
  | cons x0 xs ih =>
    intro se
    unfold upsertFinal
    by_cases hsid : x0.step_id = se.step_id
    · rw [if_pos hsid]
      by_cases hgt : se.retry_count > x0.retry_count
      · rw [if_pos hgt]
        exact ⟨se, List.mem_cons_self _ _, rfl, le_refl _⟩
      · rw [if_neg hgt]
        exact ⟨x0, List.mem_cons_self _ _, hsid, by omega⟩
    · rw [if_neg hsid]
      obtain ⟨x, hxmem, hx⟩ := ih se
      exact ⟨x, List.mem_cons_of_mem x0 hxmem, hx⟩

theorem upsertFinal_covers_old : ∀ (acc : List StepExecution)
    (se : StepExecution) (s : Nat) (n : Nat),
    (∃ x ∈ acc, x.step_id = s ∧ n ≤ x.retry_count) →
    ∃ x ∈ upsertFinal acc se, x.step_id = s ∧ n ≤ x.retry_count := by
  intro acc
  induction acc with
  | nil =>
    intro se s n h
    simp at h
  | cons x0 xs ih =>
    intro se s n h
    obtain ⟨x, hxmem, hxs, hxn⟩ := h
    unfold upsertFinal
    by_cases hsid : x0.step_id = se.step_id
    · rw [if_pos hsid]
      rcases List.mem_cons.mp hxmem with hx | hx
      · subst hx
        by_cases hgt : se.retry_count > x.retry_count
        · rw [if_pos hgt]
          exact ⟨se, List.mem_cons_self _ _, by rw [← hsid, hxs], by omega⟩
        · rw [if_neg hgt]
          exact ⟨x, List.mem_cons_self _ _, hxs, hxn⟩
      · exact ⟨x, List.mem_cons_of_mem _ hx, hxs, hxn⟩
    · rw [if_neg hsid]
      rcases List.mem_cons.mp hxmem with hx | hx
      · subst hx
        exact ⟨x, List.mem_cons_self _ _, hxs, hxn⟩
      · obtain ⟨x2, hx2mem, hx2⟩ := ih se s n ⟨x, hx, hxs, hxn⟩
        exact ⟨x2, List.mem_cons_of_mem _ hx2mem, hx2⟩

theorem upsertFinal_sid_nodup : ∀ (acc : List StepExecution)
    (se : StepExecution),
    (acc.map (fun x => x.step_id)).Nodup →
    ((upsertFinal acc se).map (fun x => x.step_id)).Nodup := by
  intro acc
  induction acc with
  | nil =>
    intro se _
    simp [upsertFinal]
  | cons x0 xs ih =>
    intro se hnd
    simp only [List.map_cons, List.nodup_cons] at hnd
    obtain ⟨hx0, hxs⟩ := hnd
    unfold upsertFinal
    by_cases hsid : x0.step_id = se.step_id
    · rw [if_pos hsid]
      by_cases hgt : se.retry_count > x0.retry_count <;>
        [rw [if_pos hgt]; rw [if_neg hgt]] <;>
        simp only [List.map_cons, List.nodup_cons] <;>
        refine ⟨?_, hxs⟩
      · rw [← hsid]
        exact hx0
      · exact hx0
    · rw [if_neg hsid]
      simp only [List.map_cons, List.nodup_cons]
      refine ⟨?_, ih se hxs⟩
      intro hcontra
      simp only [List.mem_map] at hcontra
      obtain ⟨z, hzmem, hzsid⟩ := hcontra
      rcases upsertFinal_mem xs se z hzmem with hz | hz
      · exact hx0 (List.mem_map.mpr ⟨z, hz, hzsid⟩)
      · subst hz
        exact hsid hzsid.symm

theorem finalStatuses_mem (ses : List StepExecution) :
    ∀ x ∈ finalStatuses ses, x ∈ ses := by
  have hgen : ∀ (l acc : List StepExecution) (x : StepExecution),
      x ∈ l.foldl upsertFinal acc → x ∈ acc ∨ x ∈ l := by
    intro l
    induction l with
    | nil =>
      intro acc x hx
      exact Or.inl hx
    | cons z l2 ih =>
      intro acc x hx
      simp only [List.foldl_cons] at hx
      rcases ih (upsertFinal acc z) x hx with h | h
      · rcases upsertFinal_mem acc z x h with h2 | h2
        · exact Or.inl h2
        · exact Or.inr (h2 ▸ List.mem_cons_self z l2)
      · exact Or.inr (List.mem_cons_of_mem z h)
  intro x hx
  rcases hgen ses [] x hx with h | h
  · simp at h
  · exact h

theorem finalStatuses_covers (ses : List StepExecution) :
    ∀ y ∈ ses, ∃ x ∈ finalStatuses ses, x.step_id = y.step_id ∧
      y.retry_count ≤ x.retry_count := by
  have hgen : ∀ (l acc : List StepExecution) (s n : Nat),
      ((∃ y ∈ l, y.step_id = s ∧ n ≤ y.retry_count) ∨
        (∃ x ∈ acc, x.step_id = s ∧ n ≤ x.retry_count)) →
      ∃ x ∈ l.foldl upsertFinal acc, x.step_id = s ∧ n ≤ x.retry_count := by
    intro l
    induction l with
    | nil =>
      intro acc s n h
      rcases h with h | h
      · simp at h
      · exact h
    | cons z l2 ih =>
      intro acc s n h
      simp only [List.foldl_cons]
      rcases h with ⟨y, hymem, hys, hyn⟩ | h
      · rcases List.mem_cons.mp hymem with hy | hy
        · subst hy
          refine ih (upsertFinal acc y) s n (Or.inr ?_)
          obtain ⟨x, hxmem, hx1, hx2⟩ := upsertFinal_covers_new acc y
          exact ⟨x, hxmem, by rw [hx1, hys], by omega⟩
        · exact ih (upsertFinal acc z) s n (Or.inl ⟨y, hy, hys, hyn⟩)
      · exact ih (upsertFinal acc z) s n
          (Or.inr (upsertFinal_covers_old acc z s n h))
  intro y hy
  exact hgen ses [] y.step_id y.retry_count (Or.inl ⟨y, hy, rfl, le_refl _⟩)

theorem finalStatuses_sid_nodup (ses : List StepExecution) :
    ((finalStatuses ses).map (fun x => x.step_id)).Nodup := by
  have hgen : ∀ (l acc : List StepExecution),
      (acc.map (fun x => x.step_id)).Nodup →
      ((l.foldl upsertFinal acc).map (fun x => x.step_id)).Nodup := by
    intro l
    induction l with
    | nil =>
      intro acc h
      exact h
    | cons z l2 ih =>
      intro acc h
      simp only [List.foldl_cons]
      exact ih (upsertFinal acc z) (upsertFinal_sid_nodup acc z h)
  exact hgen ses [] (by simp)

theorem wf_pending_to_running (w : WorkflowExecution)
    (hw : w.status = .pending) (now : Nat) :
    WorkflowExecution.transition_to w .running now =
      ({ w with status := .running, started_at := some now }, none) := by
  simp [WorkflowExecution.transition_to, hw,
    WorkflowExecutionStatus.isTerminal, workflowValidTransition]

theorem wf_running_to_success (w : WorkflowExecution)
    (hw : w.status = .running) (now : Nat) :
    WorkflowExecution.transition_to w .success now =
      ({ w with status := .success, finished_at := some now }, none) := by
  simp [WorkflowExecution.transition_to, hw,
    WorkflowExecutionStatus.isTerminal, workflowValidTransition]

theorem wf_running_to_failed (w : WorkflowExecution)
    (hw : w.status = .running) (now : Nat) :
    WorkflowExecution.transition_to w .failed now =
      ({ w with status := .failed, finished_at := some now }, none) := by
  simp [WorkflowExecution.transition_to, hw,
    WorkflowExecutionStatus.isTerminal, workflowValidTransition]

theorem completeWorkflowExecution_running (we : WorkflowExecution)
    (ses : List StepExecution) (now : Nat) (hw : we.status = .running) :
    completeWorkflowExecution we ses now =
      .ok { we with
            status :=
              if (finalStatuses ses).any
                  (fun se => decide (se.status = .failed))
              then .failed else .success
            finished_at := some now } := by
  unfold completeWorkflowExecution
  by_cases hf : (finalStatuses ses).any
      (fun se => decide (se.status = .failed)) = true
  · simp [hf, wf_running_to_failed we hw now]
  · have hf2 : ((finalStatuses ses).any
        (fun se => decide (se.status = .failed))) = false := by
      simpa using hf
    simp [hf2, wf_running_to_success we hw now]

theorem mem_of_getLast? : ∀ (l : List StepExecution) (a : StepExecution),
    l.getLast? = some a → a ∈ l := by
  intro l
  induction l with
  | nil =>
    intro a h
    simp at h
  | cons x xs ih =>
    intro a h
    rcases hxs : xs with _ | ⟨y, ys⟩
    · subst hxs
      simp only [List.getLast?_singleton, Option.some.injEq] at h
      exact h ▸ List.mem_cons_self _ _
    · subst hxs
      rw [List.getLast?_cons_cons] at h
      exact List.mem_cons_of_mem x (ih a h)

/-- Every attempt produced by the per-step iteration is terminal
(SUCCESS or FAILED) and belongs to the given workflow execution. -/
theorem executeStepsGo_terminal (behavior : Behavior) (weid wid : Nat)
    (ti : Value) (now : Nat) :
    ∀ (steps : List Step) (ci : Value) (nid : Nat)
      (ses : List StepExecution) (evs : List Event),
    executeStepsGo behavior weid wid ti now steps ci nid = .ok (ses, evs) →
    ∀ x ∈ ses, (x.status = .success ∨ x.status = .failed) ∧
      x.workflow_execution_id = weid := by
  intro steps
  induction steps with
  | nil =>
    intro ci nid ses evs h x hx
    simp only [executeStepsGo, Except.ok.injEq, Prod.mk.injEq] at h
    rw [← h.1] at hx
    simp at hx
  | cons step rest ih =>
    intro ci nid ses evs h x hx
    simp only [executeStepsGo] at h
    rcases h3 : stepLoop behavior step wid weid ti
        { id := nid, workflow_execution_id := weid, step_id := step.id,
          status := .pending, input := wrapInput ci } ci now
        with e | ⟨as, evs0, last, res⟩ <;> rw [h3] at h
    · simp at h
    · have hm := stepLoop_spec behavior step wid weid ti
        { id := nid, workflow_execution_id := weid, step_id := step.id,
          status := .pending, input := wrapInput ci } ci now
        rfl rfl rfl rfl rfl as evs0 last res h3
      obtain ⟨_, _, hall, _⟩ := hm
      simp only at h
      by_cases hlf : last.status = .failed
      · rw [if_pos hlf] at h
        simp only [Except.ok.injEq, Prod.mk.injEq] at h
        rw [← h.1] at hx
        exact ⟨(hall x hx).1, (hall x hx).2.2.1⟩
      · rw [if_neg hlf] at h
        rcases h4 : executeStepsGo behavior weid wid ti now rest res.output
            (nid + as.length) with e | ⟨as2, evs2⟩ <;> rw [h4] at h
        · simp at h
        · simp only [Except.ok.injEq, Prod.mk.injEq] at h
          rw [← h.1] at hx
          rcases List.mem_append.mp hx with hx | hx
          · exact ⟨(hall x hx).1, (hall x hx).2.2.1⟩
          · exact ih res.output (nid + as.length) as2 evs2 h4 x hx

/-- The steps that get attempts in a run of the per-step iteration are
exactly a prefix of the step list; when the prefix is proper, its last step
has a FAILED attempt that fails the retry condition. -/
theorem executeStepsGo_prefix (behavior : Behavior) (weid wid : Nat)
    (ti : Value) (now : Nat) :
    ∀ (steps : List Step) (ci : Value) (nid : Nat)
      (ses : List StepExecution) (evs : List Event),
    executeStepsGo behavior weid wid ti now steps ci nid = .ok (ses, evs) →
    ∃ k, k ≤ steps.length ∧
      (∀ x ∈ ses, ∃ i, ∃ hi : i < steps.length, i < k ∧
        x.step_id = (steps[i]).id) ∧
      (∀ i (hi : i < steps.length), i < k →
        ∃ x ∈ ses, x.step_id = (steps[i]).id) ∧
      (k < steps.length →
        ∃ j, ∃ hj : j < steps.length, j + 1 = k ∧
          ∃ x ∈ ses, x.step_id = (steps[j]).id ∧ x.status = .failed ∧
            recordRetryCond (steps[j]) x = false) := by
  intro steps
  induction steps with
  | nil =>
    intro ci nid ses evs h
    simp only [executeStepsGo, Except.ok.injEq, Prod.mk.injEq] at h
    refine ⟨0, le_refl _, ?_, ?_, ?_⟩
    · intro x hx
      rw [← h.1] at hx
      simp at hx
    · intro i hi
      simp at hi
    · intro hk
      simp at hk
  | cons step rest ih =>
    intro ci nid ses evs h
    simp only [executeStepsGo] at h
    rcases h3 : stepLoop behavior step wid weid ti
        { id := nid, workflow_execution_id := weid, step_id := step.id,
          status := .pending, input := wrapInput ci } ci now
        with e | ⟨as, evs0, last, res⟩ <;> rw [h3] at h
    · simp at h
    · have hm := stepLoop_spec behavior step wid weid ti
        { id := nid, workflow_execution_id := weid, step_id := step.id,
          status := .pending, input := wrapInput ci } ci now
        rfl rfl rfl rfl rfl as evs0 last res h3
      obtain ⟨⟨hne, hlastmem⟩, _, hall, _, _, hfin, _, _, _⟩ := hm
      simp only at h
      by_cases hlf : last.status = .failed
      · rw [if_pos hlf] at h
        simp only [Except.ok.injEq, Prod.mk.injEq] at h
        refine ⟨1, by simp, ?_, ?_, ?_⟩
        · intro x hx
          rw [← h.1] at hx
          exact ⟨0, by simp, by simp, (hall x hx).2.1⟩
        · intro i hi hik
          have : i = 0 := by omega
          subst this
          have hlmem : last ∈ as := mem_of_getLast? as last hlastmem
          refine ⟨last, ?_, ?_⟩
          · rw [← h.1]; exact hlmem
          · simpa using (hall last hlmem).2.1
        · intro hk
          refine ⟨0, by simp, rfl, last, ?_, ?_, hlf, ?_⟩
          · rw [← h.1]; exact mem_of_getLast? as last hlastmem
          · simpa using (hall last (mem_of_getLast? as last hlastmem)).2.1
          · simpa using hfin hlf
      · rw [if_neg hlf] at h
        rcases h4 : executeStepsGo behavior weid wid ti now rest res.output
            (nid + as.length) with e | ⟨as2, evs2⟩ <;> rw [h4] at h
        · simp at h
        · simp only [Except.ok.injEq, Prod.mk.injEq] at h
          obtain ⟨k2, hk2le, hin2, hcov2, hhalt2⟩ :=
            ih res.output (nid + as.length) as2 evs2 h4
          refine ⟨k2 + 1, by simpa using hk2le, ?_, ?_, ?_⟩
          · intro x hx
            rw [← h.1] at hx
            rcases List.mem_append.mp hx with hx | hx
            · exact ⟨0, by simp, by omega, (hall x hx).2.1⟩
            · obtain ⟨i, hi, hik, hsid⟩ := hin2 x hx
              exact ⟨i + 1, by simpa using hi, by omega,
                by simpa using hsid⟩
          · intro i hi hik
            cases i with
            | zero =>
              rcases has : as with _ | ⟨h0, t⟩
              · exact absurd has hne
              have h0mem : h0 ∈ as := by
                rw [has]
                exact List.mem_cons_self _ _
              refine ⟨h0, ?_, ?_⟩
              · rw [← h.1]
                exact List.mem_append.mpr (Or.inl h0mem)
              · simpa using (hall h0 h0mem).2.1
            | succ j =>
              obtain ⟨x, hxmem, hsid⟩ := hcov2 j (by simpa using hi)
                (by omega)
              refine ⟨x, ?_, by simpa using hsid⟩
              rw [← h.1]
              exact List.mem_append.mpr (Or.inr hxmem)
          · intro hk
            obtain ⟨j2, hj2, hj2k, x, hxmem, hsid, hst, hcond⟩ :=
              hhalt2 (by simpa using hk)
            refine ⟨j2 + 1, by simpa using hj2, by omega, x, ?_,
              by simpa using hsid, hst, by simpa using hcond⟩
            rw [← h.1]
            exact List.mem_append.mpr (Or.inr hxmem)

theorem executeWorkflow_inv (behavior : Behavior) (workflow : Workflow)
    (steps : List Step) (ti : Value) (now : Nat)
    (we2 : WorkflowExecution) (ses : List StepExecution) (evs : List Event)
    (h : executeWorkflow behavior workflow steps ti now =
      .ok (we2, ses, evs)) :
    executeStepsGo behavior 0 workflow.id ti now steps ti 1 =
      .ok (ses, evs)
    ∧ we2.status =
        (if (finalStatuses ses).any (fun se => decide (se.status = .failed))
         then .failed else .success) := by
  unfold executeWorkflow at h
  simp only at h
  rw [wf_pending_to_running _ rfl now] at h
  simp only [executeSteps, Option.getD_none] at h
  rcases hs : executeStepsGo behavior 0 workflow.id ti now steps ti 1
      with e | ⟨ses0, evs0⟩ <;> rw [hs] at h
  · simp at h
  · simp only at h
    rw [completeWorkflowExecution_running _ _ _ rfl] at h
    simp only [Except.ok.injEq, Prod.mk.injEq] at h
    obtain ⟨hwe, hses, hevs⟩ := h
    subst hses hevs
    exact ⟨rfl, by rw [← hwe]⟩

/-- C4: completing a run groups the attempts by step id, selects in each
group the attempt with the highest `retry_count` (the effective attempts:
a subset of the attempts, one per step id, dominating every attempt of the
same step), and the execution ends FAILED exactly when some effective
attempt is FAILED — equivalently SUCCESS exactly when every effective
attempt is SUCCESS. -/
theorem c4_completion_effective (behavior : Behavior) (workflow : Workflow)
    (steps : List Step) (ti : Value) (now : Nat)
    (we2 : WorkflowExecution) (ses : List StepExecution) (evs : List Event)
    (h : executeWorkflow behavior workflow steps ti now =
      .ok (we2, ses, evs)) :
      (we2.status = .failed ∨ we2.status = .success)
    ∧ (we2.status = .failed ↔ ∃ x ∈ finalStatuses ses, x.status = .failed)
    ∧ (we2.status = .success ↔ ∀ x ∈ finalStatuses ses,
        x.status = .success)
    ∧ (∀ x ∈ finalStatuses ses, x ∈ ses)
    ∧ (∀ y ∈ ses, ∃ x ∈ finalStatuses ses, x.step_id = y.step_id ∧
        y.retry_count ≤ x.retry_count)
    ∧ ((finalStatuses ses).map (fun x => x.step_id)).Nodup := by
  obtain ⟨hs, hst⟩ := executeWorkflow_inv behavior workflow steps ti now
    we2 ses evs h
  have hterm := executeStepsGo_terminal behavior 0 workflow.id ti now
    steps ti 1 ses evs hs
  by_cases hf : (finalStatuses ses).any
      (fun se => decide (se.status = .failed)) = true
  · rw [hf, if_pos rfl] at hst
    obtain ⟨x, hxmem, hxf⟩ := List.any_eq_true.mp hf
    simp only [decide_eq_true_eq] at hxf
    refine ⟨Or.inl hst, ?_, ?_, finalStatuses_mem ses,
      finalStatuses_covers ses, finalStatuses_sid_nodup ses⟩
    · rw [hst]
      exact ⟨fun _ => ⟨x, hxmem, hxf⟩, fun _ => rfl⟩
    · rw [hst]
      constructor
      · intro hcontra
        exact absurd hcontra (by simp)
      · intro hall
        have := hall x hxmem
        rw [hxf] at this
        exact absurd this (by simp)
  · have hf2 : ((finalStatuses ses).any
        (fun se => decide (se.status = .failed))) = false := by
      simpa using hf
    rw [hf2] at hst
    simp only [Bool.false_eq_true, if_false] at hst
    have hnofail : ∀ x ∈ finalStatuses ses, ¬ x.status = .failed := by
      intro x hx
      have := List.any_eq_false.mp hf2 x hx
      simpa using this
    refine ⟨Or.inr hst, ?_, ?_, finalStatuses_mem ses,
      finalStatuses_covers ses, finalStatuses_sid_nodup ses⟩
    · rw [hst]
      constructor
      · intro hcontra
        exact absurd hcontra (by simp)
      · intro ⟨x, hx, hxf⟩
        exact absurd hxf (hnofail x hx)
    · rw [hst]
      refine ⟨fun _ x hx => ?_, fun _ => rfl⟩
      have hmem := finalStatuses_mem ses x hx
      rcases (hterm x hmem).1 with hsu | hfa
      · exact hsu
      · exact absurd hfa (hnofail x hx)

/-- C5: in a run over the workflow's ordered steps, attempts exist exactly
for a prefix of the steps; when the prefix is proper (execution halted),
its last step has a FAILED attempt that fails the retry condition, and no
step after it has any attempt. -/
theorem c5_halting_prefix (behavior : Behavior) (workflow : Workflow)
    (steps : List Step) (ti : Value) (now : Nat)
    (we2 : WorkflowExecution) (ses : List StepExecution) (evs : List Event)
    (hsorted : steps.Pairwise (fun s t => s.order < t.order))
    (h : executeWorkflow behavior workflow steps ti now =
      .ok (we2, ses, evs)) :
    ∃ k, k ≤ steps.length ∧
      (∀ x ∈ ses, ∃ i, ∃ hi : i < steps.length, i < k ∧
        x.step_id = (steps[i]).id) ∧
      (∀ i (hi : i < steps.length), i < k →
        ∃ x ∈ ses, x.step_id = (steps[i]).id) ∧
      (k < steps.length →
        ∃ j, ∃ hj : j < steps.length, j + 1 = k ∧
          ∃ x ∈ ses, x.step_id = (steps[j]).id ∧ x.status = .failed ∧
            recordRetryCond (steps[j]) x = false) := by
  obtain ⟨hs, _⟩ := executeWorkflow_inv behavior workflow steps ti now
    we2 ses evs h
  exact executeStepsGo_prefix behavior 0 workflow.id ti now steps ti 1
    ses evs hs

/-- A sample workflow record. -/
def wfSample : Workflow := { id := 1, version := 1 }

/-- A step implementation that always succeeds. -/
def successBehavior : Behavior := fun _ _ => .returns successResult

/-- The single attempt of the sample happy-path run. -/
def c45Attempt : StepExecution :=
  { id := 1, workflow_execution_id := 0, step_id := 10,
    status := .success, input := .obj [("value", .int 3)],
    output := some successOut, started_at := some 0, finished_at := some 0 }

/-- The completed execution of the sample happy-path run. -/
def c45WE : WorkflowExecution :=
  { id := 0, workflow_id := 1, workflow_version := 1, status := .success,
    trigger_source := "manual", started_at := some 0,
    finished_at := some 0 }

theorem c45_run :
    executeWorkflow successBehavior wfSample [sampleStep] (.int 3) 0 =
      .ok (c45WE, [c45Attempt], [.invoke 10 0 (.int 3)]) := by
  have hgo : executeStepsGo successBehavior 0 1 (.int 3) 0 [sampleStep]
      (.int 3) 1 = .ok ([c45Attempt], [.invoke 10 0 (.int 3)]) := by
    simp only [executeStepsGo]
    rw [show (stepLoop successBehavior sampleStep 1 0 (.int 3)
        { id := 1, workflow_execution_id := 0, step_id := sampleStep.id,
          status := .pending, input := wrapInput (.int 3) } (.int 3) 0) =
        .ok ([c45Attempt], [.invoke 10 0 (.int 3)], c45Attempt,
             successResult) from by rw [stepLoop_eq]; rfl]
    rfl
  rw [show executeWorkflow successBehavior wfSample [sampleStep]
      (.int 3) 0 =
      (match executeStepsGo successBehavior 0 1 (.int 3) 0 [sampleStep]
          (.int 3) 1 with
       | .error e => .error e
       | .ok (ses, evs) =>
         match completeWorkflowExecution
             { id := 0, workflow_id := 1, workflow_version := 1,
               status := .running, trigger_source := "manual",
               started_at := some 0 } ses 0 with
         | .error e => .error e
         | .ok w => .ok (w, ses, evs)) from rfl]
  rw [hgo]
  rfl

/-- Witness for C4 on a concrete happy-path run: the execution ends SUCCESS
and the iff with the effective attempts holds. -/
theorem c4_completion_effective_witness :
    c45WE.status = .success
    ∧ (c45WE.status = .success ↔
        ∀ x ∈ finalStatuses [c45Attempt], x.status = .success)
    ∧ (c45WE.status = .failed ↔
        ∃ x ∈ finalStatuses [c45Attempt], x.status = .failed) := by
  have h := c4_completion_effective successBehavior wfSample [sampleStep]
    (.int 3) 0 c45WE [c45Attempt] [.invoke 10 0 (.int 3)] c45_run
  exact ⟨rfl, h.2.2.1, h.2.1⟩

/-- Witness for C5 on the same run: the steps with attempts are exactly a
prefix of the step list. -/
theorem c5_halting_prefix_witness :
    ∃ k, k ≤ [sampleStep].length ∧
      (∀ x ∈ [c45Attempt], ∃ i, ∃ hi : i < [sampleStep].length, i < k ∧
        x.step_id = (([sampleStep])[i]).id) ∧
      (∀ i (hi : i < [sampleStep].length), i < k →
        ∃ x ∈ [c45Attempt], x.step_id = (([sampleStep])[i]).id) ∧
      (k < [sampleStep].length →
        ∃ j, ∃ hj : j < [sampleStep].length, j + 1 = k ∧
          ∃ x ∈ [c45Attempt], x.step_id = (([sampleStep])[j]).id ∧
            x.status = .failed ∧
            recordRetryCond (([sampleStep])[j]) x = false) :=
  c5_halting_prefix successBehavior wfSample [sampleStep] (.int 3) 0
    c45WE [c45Attempt] [.invoke 10 0 (.int 3)] (by simp) c45_run

/-- The step of the resume scenario. -/
def c1Step : Step :=
  { id := 10, workflow_id := 1, order := 1, timeout_seconds := 30 }

/-- A RUNNING (hence NOT terminal) workflow execution: the first
precondition of the claim is violated. -/
def c1Execution : WorkflowExecution :=
  { id := 100, workflow_id := 1, workflow_version := 1, status := .running,
    trigger_source := "manual" }

/-- A SUCCESS (hence not FAILED) attempt: the third precondition of the
claim is violated. -/
def c1Attempt : StepExecution :=
  { id := 1000, workflow_execution_id := 100, step_id := 10,
    status := .success, input := .obj [("value", .int 3)],
    output := some successOut }

/-- The persisted state before the resume call. -/
def c1Db : Db :=
  { workflows := [wfSample], steps := [c1Step],
    executions := [c1Execution], step_executions := [c1Attempt] }

/-- The attempt the resume call creates and runs despite the violated
preconditions. -/
def c1RetryFinal : StepExecution :=
  { id := 2000, workflow_execution_id := 100, step_id := 10,
    status := .success, input := .obj [("value", .int 3)],
    output := some successOut, retry_count := 1, is_retry := true,
    parent_step_execution_id := some 1000, started_at := some 5,
    finished_at := some 5 }

/-- C1 (code bug evidence): `resume_execution` performs none of the four
checks.  On a state where the execution is RUNNING (not terminal) and the
referenced attempt is SUCCESS (not FAILED), the call raises no "not
retryable" error: it succeeds, creates and executes a brand-new successor
attempt (`retry_count + 1`, parent link to the SUCCESS attempt) and
overwrites the execution's terminal outcome — instead of failing and
leaving the state untouched as the claim requires. -/
theorem c1_resume_skips_preconditions :
    c1Execution.status = .running
    ∧ (c1Execution.status.isTerminal = false)
    ∧ c1Attempt.status = .success
    ∧ resumeExecution successBehavior c1Db 100 1000 2000 5 =
        .ok ({ c1Execution with status := .success, finished_at := some 5 },
             [c1Attempt, c1RetryFinal],
             [.invoke 10 1 (.obj [("value", .int 3)])])
    ∧ c1RetryFinal.retry_count = c1Attempt.retry_count + 1
    ∧ c1RetryFinal.parent_step_execution_id = some c1Attempt.id
    ∧ c1RetryFinal.is_retry = true := by
  exact ⟨rfl, rfl, rfl, rfl, rfl, rfl, rfl⟩

end WorkflowApp
